import Mathlib

/-!
# Verification of the command-extraction and dispatch protocol

This development embeds the core of the voice/text shell assistant
(`src/main.py` and `src/work.py`): the Directive Extractor that splits an
LLM reply into prose and an `<ACTION>{...}</ACTION>` directive, the bounded
conversation transcript, and the Command Dispatcher
(`ShellAssistant.execute_command`) together with a model of the
process-management collaborator (`ProcessManager`).

Modelling conventions:
* Python strings are modelled as Lean `String` viewed through its character
  list (`String.data`); slicing, `find`, `in`, `strip`, `lower`, `upper`
  and `startswith` are defined below on character lists, mirroring their
  Python (character-indexed) semantics.
* `json.loads` is modelled by an executable JSON parser (`parseJson`).
  JSON numerals with a fraction or exponent (and the Python extensions
  `NaN`/`Infinity`) parse to the opaque constructor `Json.float`: no claim
  depends on floating-point values, only on the dynamic type of the result.
* The OS (psutil, filesystem, application launch) is the external
  collaborator of the spec; it is modelled as an explicit state: a process
  table plus abstract results for the read-only queries.  Termination of a
  process removes it from the table; per-process `denied` / `slow` flags
  model psutil raising `AccessDenied` / `TimeoutExpired`.
* Python exceptions are modelled as values: fallible steps return `Option`
  or `Except`, and each `except` clause of the source corresponds to a
  `match` on that result.  A function that the source wraps in a catch-all
  handler is total here, with the handler branch producing the error text.
-/

/-! ## Python-style string primitives -/

/-- Index of the first occurrence of `pat` in `l` (Python `str.find` on the
character level), `none` when `pat` does not occur. -/
def findSub (l pat : List Char) : Option Nat :=
  if pat.isPrefixOf l then some 0
  else
    match l with
    | [] => none
    | _ :: t => (findSub t pat).map (· + 1)

/-- Python `pat in s` (substring containment). -/
def strContains (s pat : String) : Bool :=
  (findSub s.data pat.data).isSome

/-- Python `s.find(pat)` under the assumption that `pat` occurs (the source
only uses `find` after an `in` guard). -/
def strFind (s pat : String) : Nat :=
  (findSub s.data pat.data).getD 0

/-- Python slice `s[a:b]` with character indices. -/
def pySlice (s : String) (a b : Nat) : String :=
  ⟨(s.data.take b).drop a⟩

/-- The whitespace set of Python `str.strip()` (ASCII part). -/
def pyIsSpace (c : Char) : Bool :=
  c = ' ' || c = '\t' || c = '\n' || c = '\r' || c = '\x0b' || c = '\x0c'

/-- Python `s.strip()`. -/
def pyStrip (s : String) : String :=
  ⟨((s.data.dropWhile pyIsSpace).reverse.dropWhile pyIsSpace).reverse⟩

/-- Python `s.lower()` (ASCII case folding; the source strings are ASCII
apart from symbols, which `lower` leaves unchanged in both languages). -/
def lowerStr (s : String) : String :=
  ⟨s.data.map Char.toLower⟩

/-- Python `s.upper()`. -/
def upperStr (s : String) : String :=
  ⟨s.data.map Char.toUpper⟩

/-- Python `s.startswith(pre)`. -/
def pyStartswith (s pre : String) : Bool :=
  pre.data.isPrefixOf s.data

/-! ## JSON values (the result type of `json.loads`) -/

/-- Python values produced by `json.loads`.  `float` stands for any JSON
numeral with a fraction or exponent (and `NaN`/`Infinity`): claims never
depend on a floating-point value, only on its dynamic type. -/
inductive Json where
  | null : Json
  | bool : Bool → Json
  | num : Int → Json
  | float : Json
  | str : String → Json
  | arr : List Json → Json
  | obj : List (String × Json) → Json
deriving Repr, Inhabited

mutual

/-- Structural equality test on decoded JSON values. -/
def Json.beq : Json → Json → Bool
  | .null, .null => true
  | .bool a, .bool b => a == b
  | .num a, .num b => a == b
  | .float, .float => true
  | .str a, .str b => a == b
  | .arr xs, .arr ys => Json.beqList xs ys
  | .obj xs, .obj ys => Json.beqPairs xs ys
  | _, _ => false

/-- Structural equality on lists of JSON values. -/
def Json.beqList : List Json → List Json → Bool
  | [], [] => true
  | x :: xs, y :: ys => Json.beq x y && Json.beqList xs ys
  | _, _ => false

/-- Structural equality on JSON object members. -/
def Json.beqPairs : List (String × Json) → List (String × Json) → Bool
  | [], [] => true
  | (k, v) :: xs, (k2, v2) :: ys =>
      k == k2 && Json.beq v v2 && Json.beqPairs xs ys
  | _, _ => false

end

mutual

theorem Json.beq_iff : ∀ a b : Json, Json.beq a b = true ↔ a = b
  | .null, b => by cases b <;> simp [Json.beq]
  | .bool x, b => by cases b <;> simp [Json.beq]
  | .num x, b => by cases b <;> simp [Json.beq]
  | .float, b => by cases b <;> simp [Json.beq]
  | .str s, b => by cases b <;> simp [Json.beq]
  | .arr xs, b => by
      cases b <;> simp [Json.beq]
      exact Json.beqList_iff xs _
  | .obj kvs, b => by
      cases b <;> simp [Json.beq]
      exact Json.beqPairs_iff kvs _

theorem Json.beqList_iff : ∀ xs ys : List Json, Json.beqList xs ys = true ↔ xs = ys
  | [], ys => by cases ys <;> simp [Json.beqList]
  | x :: xs, ys => by
      cases ys with
      | nil => simp [Json.beqList]
      | cons y ys =>
        simp only [Json.beqList, Bool.and_eq_true, List.cons.injEq]
        exact and_congr (Json.beq_iff x y) (Json.beqList_iff xs ys)

theorem Json.beqPairs_iff :
    ∀ xs ys : List (String × Json), Json.beqPairs xs ys = true ↔ xs = ys
  | [], ys => by cases ys <;> simp [Json.beqPairs]
  | (k, v) :: xs, ys => by
      cases ys with
      | nil => simp [Json.beqPairs]
      | cons p ys =>
        obtain ⟨k2, v2⟩ := p
        simp only [Json.beqPairs, Bool.and_eq_true, List.cons.injEq, Prod.mk.injEq,
          beq_iff_eq, and_assoc]
        exact and_congr Iff.rfl (and_congr (Json.beq_iff v v2) (Json.beqPairs_iff xs ys))

end

instance : DecidableEq Json :=
  fun a b => decidable_of_iff _ (Json.beq_iff a b)

/-- Name of the Python type of a decoded JSON value, as it appears in
`AttributeError` messages. -/
def pyTypeName : Json → String
  | .null => "NoneType"
  | .bool _ => "bool"
  | .num _ => "int"
  | .float => "float"
  | .str _ => "str"
  | .arr _ => "list"
  | .obj _ => "dict"

/-- Python `dict` lookup on the decoded members (later duplicate keys win,
as in `json.loads`). -/
def jsonLookup (kvs : List (String × Json)) (k : String) : Option Json :=
  (kvs.reverse.find? (fun kv => kv.1 = k)).map (·.2)

/-! ## A JSON parser modelling `json.loads` -/

/-- JSON inter-token whitespace. -/
def jIsWs (c : Char) : Bool :=
  c = ' ' || c = '\t' || c = '\n' || c = '\r'

/-- Skip JSON whitespace. -/
def jskipWs : List Char → List Char
  | [] => []
  | c :: cs => if jIsWs c then jskipWs cs else c :: cs

/-- Single-character string escapes of JSON. -/
def escChar : Char → Option Char
  | 'n' => some '\n'
  | 't' => some '\t'
  | 'r' => some '\r'
  | 'b' => some '\x08'
  | 'f' => some '\x0c'
  | '"' => some '"'
  | '\\' => some '\\'
  | '/' => some '/'
  | _ => none

/-- Hexadecimal digit value. -/
def hexVal (c : Char) : Option Nat :=
  if '0' ≤ c ∧ c ≤ '9' then some (c.toNat - 48)
  else if 'a' ≤ c ∧ c ≤ 'f' then some (c.toNat - 87)
  else if 'A' ≤ c ∧ c ≤ 'F' then some (c.toNat - 55)
  else none

/-- Body of a JSON string after the opening quote: returns the decoded
characters and the remainder after the closing quote.  `\uXXXX` escapes
outside the surrogate range are decoded; surrogates are not modelled. -/
def parseStrBody : List Char → Option (List Char × List Char)
  | [] => none
  | c :: cs =>
    if c = '"' then some ([], cs)
    else if c = '\\' then
      match cs with
      | 'u' :: h1 :: h2 :: h3 :: h4 :: cs2 =>
        match hexVal h1, hexVal h2, hexVal h3, hexVal h4 with
        | some a, some b, some c3, some d =>
          let n := ((a * 16 + b) * 16 + c3) * 16 + d
          if 0xD800 ≤ n ∧ n ≤ 0xDFFF then none
          else (parseStrBody cs2).map (fun p => (Char.ofNat n :: p.1, p.2))
        | _, _, _, _ => none
      | e :: cs2 =>
        match escChar e with
        | some r => (parseStrBody cs2).map (fun p => (r :: p.1, p.2))
        | none => none
      | [] => none
    else if c.toNat < 32 then none
    else (parseStrBody cs).map (fun p => (c :: p.1, p.2))

/-- Accumulate a run of decimal digits (value and remainder). -/
def parseDigitsAcc : List Char → Nat → Nat × List Char
  | [], acc => (acc, [])
  | c :: t, acc =>
    if c.isDigit then parseDigitsAcc t (acc * 10 + (c.toNat - 48))
    else (acc, c :: t)

/-- Expect the literal `lit` as a prefix. -/
def stripLit (lit cs : List Char) : Option (List Char) :=
  if lit.isPrefixOf cs then some (cs.drop lit.length) else none

/-- Consume `digits` (at least one) and return the remainder. -/
def parseDigitRun : List Char → Option (List Char)
  | [] => none
  | c :: t =>
    if c.isDigit then some (t.dropWhile Char.isDigit) else none

/-- Consume the exponent part `e|E [+|-] digits` if present. -/
def parseExpTail : List Char → Option (List Char)
  | 'e' :: t =>
    match t with
    | '+' :: t2 => parseDigitRun t2
    | '-' :: t2 => parseDigitRun t2
    | _ => parseDigitRun t
  | 'E' :: t =>
    match t with
    | '+' :: t2 => parseDigitRun t2
    | '-' :: t2 => parseDigitRun t2
    | _ => parseDigitRun t
  | cs => some cs

/-- The body of a JSON numeral after an optional leading minus
(including the Python `json` extension `Infinity`).  Integer numerals
decode to `Json.num`; numerals with a fraction or exponent decode to the
opaque `Json.float`. -/
def parseNumberSigned (neg : Bool) : List Char → Option (Json × List Char)
  | 'I' :: t => (stripLit "nfinity".data t).map (fun r => (Json.float, r))
  | c :: t =>
    if c.isDigit then
      if c == '0' && (match t with | d :: _ => d.isDigit | [] => false) then none
      else
        let p := parseDigitsAcc (c :: t) 0
        match p.2 with
        | '.' :: r2 =>
          match parseDigitRun r2 with
          | some r3 => (parseExpTail r3).map (fun r4 => (Json.float, r4))
          | none => none
        | 'e' :: _ => (parseExpTail p.2).map (fun r4 => (Json.float, r4))
        | 'E' :: _ => (parseExpTail p.2).map (fun r4 => (Json.float, r4))
        | _ => some (Json.num (if neg then -(p.1 : Int) else (p.1 : Int)), p.2)
    else none
  | [] => none

/-- A JSON numeral: an optional leading minus, then the signed body. -/
def parseNumber (cs : List Char) : Option (Json × List Char) :=
  match cs with
  | '-' :: t => parseNumberSigned true t
  | _ => parseNumberSigned false cs

mutual

/-- One JSON value; `fuel` bounds the nesting/width and is measured by
`jsonFuel` below. -/
def parseVal : Nat → List Char → Option (Json × List Char)
  | 0, _ => none
  | fuel + 1, cs =>
    match jskipWs cs with
    | [] => none
    | c :: rest =>
      if c = '\x7b' then
        match jskipWs rest with
        | '\x7d' :: r2 => some (Json.obj [], r2)
        | r1 => (parseMemberSeq fuel r1).map (fun p => (Json.obj p.1, p.2))
      else if c = '[' then
        match jskipWs rest with
        | ']' :: r2 => some (Json.arr [], r2)
        | r1 => (parseElemSeq fuel r1).map (fun p => (Json.arr p.1, p.2))
      else if c = '"' then
        (parseStrBody rest).map (fun p => (Json.str ⟨p.1⟩, p.2))
      else if c = 't' then
        (stripLit "rue".data rest).map (fun r => (Json.bool true, r))
      else if c = 'f' then
        (stripLit "alse".data rest).map (fun r => (Json.bool false, r))
      else if c = 'n' then
        (stripLit "ull".data rest).map (fun r => (Json.null, r))
      else if c = 'N' then
        (stripLit "aN".data rest).map (fun r => (Json.float, r))
      else
        parseNumber (c :: rest)

/-- Non-empty comma-separated member list of an object, positioned at the
first key; consumes the closing brace. -/
def parseMemberSeq : Nat → List Char → Option (List (String × Json) × List Char)
  | 0, _ => none
  | fuel + 1, cs =>
    match cs with
    | '"' :: rest =>
      match parseStrBody rest with
      | some (k, r1) =>
        match jskipWs r1 with
        | ':' :: r2 =>
          match parseVal fuel (jskipWs r2) with
          | some (v, r3) =>
            match jskipWs r3 with
            | ',' :: r4 =>
              (parseMemberSeq fuel (jskipWs r4)).map
                (fun p => ((⟨k⟩, v) :: p.1, p.2))
            | '\x7d' :: r4 => some ([(⟨k⟩, v)], r4)
            | _ => none
          | none => none
        | _ => none
      | none => none
    | _ => none

/-- Non-empty comma-separated element list of an array, positioned at the
first element; consumes the closing bracket. -/
def parseElemSeq : Nat → List Char → Option (List Json × List Char)
  | 0, _ => none
  | fuel + 1, cs =>
    match parseVal fuel cs with
    | some (v, r1) =>
      match jskipWs r1 with
      | ',' :: r2 => (parseElemSeq fuel (jskipWs r2)).map (fun p => (v :: p.1, p.2))
      | ']' :: r2 => some ([v], r2)
      | _ => none
    | none => none

end

/-- Model of Python `json.loads`: parse one JSON value and require only
whitespace after it. -/
def parseJson (s : String) : Option Json :=
  match parseVal (s.data.length + 1) s.data with
  | some (v, rest) => if jskipWs rest = [] then some v else none
  | none => none

/-! ## The Directive Extractor

Embeds the extraction portion of `ConversationalAssistant.chat`
(src/main.py lines 598-615, src/work.py lines 434-451, identical logic).
The `try` block of `chat` wraps the whole method; an exception other than
`json.JSONDecodeError` (notably the `AttributeError` raised by
`action_data.get` when the decoded value is not a dict) is caught by that
outer handler, which returns `"Error: " + str(e)` with no command. -/

/-- Python `dict.get(k)` identifies a stored JSON `null` with an absent
key: both produce `None`. -/
def denull : Option Json → Option Json
  | some .null => none
  | o => o

/-- `params = action_data.get('params', {})`: a missing key defaults to the
empty dict, a stored `null` is Python `None`. -/
def paramsGet (kvs : List (String × Json)) : Option Json :=
  match jsonLookup kvs "params" with
  | none => some (.obj [])
  | some .null => none
  | some v => some v

/-- The Directive Extractor: split an assistant reply into
`(response_text, command, params)`. -/
def chatExtract (assistantMessage : String) : String × Option Json × Option Json :=
  if strContains assistantMessage "<ACTION>" && strContains assistantMessage "</ACTION>" then
    let actionStart := strFind assistantMessage "<ACTION>" + 8
    let actionEnd := strFind assistantMessage "</ACTION>"
    let actionJson := pyStrip (pySlice assistantMessage actionStart actionEnd)
    let responseText := pyStrip (pySlice assistantMessage 0 (strFind assistantMessage "<ACTION>"))
    match parseJson actionJson with
    | none => (responseText, none, none)
    | some (.obj kvs) => (responseText, denull (jsonLookup kvs "command"), paramsGet kvs)
    | some d =>
        ("Error: \x27" ++ pyTypeName d ++ "\x27 object has no attribute \x27get\x27", none, none)
  else
    (assistantMessage, none, none)

/-! ## Conversation transcript (Session State) -/

/-- One transcript entry (`{"role": ..., "content": ...}`). -/
structure ChatMsg where
  role : String
  content : String
deriving Repr, DecidableEq

/-- One call of `ConversationalAssistant.chat` as far as the transcript and
the returned triple are concerned (src/main.py lines 564-618, src/work.py
lines 409-454).  `userMsg` is the user content as appended (after main.py's
PID-hint annotation, which only rewrites the text).  The LLM completion is
the external collaborator: `api` is its reply, or the text of the exception
it raised, in which case `chat`'s outer handler returns an error triple
after the user message was already appended. -/
def chatTurn (hist : List ChatMsg) (userMsg : String) (api : Except String String) :
    List ChatMsg × (String × Option Json × Option Json) :=
  let h1 := hist ++ [⟨"user", userMsg⟩]
  match api with
  | .error e => (h1, ("Error: " ++ e, none, none))
  | .ok assistantMessage =>
    let h2 := h1 ++ [⟨"assistant", assistantMessage⟩]
    let h3 := if h2.length > 20 then h2.drop (h2.length - 20) else h2
    (h3, chatExtract assistantMessage)

/-- Transcript evolution over a sequence of turns (starting history plus a
list of `(user message, collaborator outcome)` pairs). -/
def chatTurns (hist : List ChatMsg) : List (String × Except String String) → List ChatMsg
  | [] => hist
  | (u, api) :: rest => chatTurns (chatTurn hist u api).1 rest

/-! ## The directive wire format (encoder)

Modelled from the spec: the encoder is produced by the LLM following the
system instruction; only its format is specified
(`<ACTION>{"command": "<name>", "params": {...}}</ACTION>` appended after
the prose).  `printJson` is a standard JSON serialization. -/

/-- Decimal digits of a natural number (fuel-structured so that it
evaluates by `rfl`; `n + 1` fuel always suffices). -/
def natDigitsAux : Nat → Nat → List Char
  | 0, _ => []
  | fuel + 1, n =>
    if n < 10 then [Char.ofNat (48 + n)]
    else natDigitsAux fuel (n / 10) ++ [Char.ofNat (48 + n % 10)]

/-- Python `str(n)` for a natural number. -/
def pyNatStr (n : Nat) : String :=
  ⟨natDigitsAux (n + 1) n⟩

/-- Python `str(n)` for an integer. -/
def pyIntStr (n : Int) : String :=
  if n < 0 then "-" ++ pyNatStr (-n).toNat else pyNatStr n.toNat

mutual

/-- JSON serialization of a decoded value (`Json.float` never occurs in an
encoded directive; it prints as a placeholder). -/
def printJson : Json → String
  | .null => "null"
  | .bool true => "true"
  | .bool false => "false"
  | .num n => pyIntStr n
  | .float => "0.0"
  | .str s => "\"" ++ s ++ "\""
  | .arr xs => "[" ++ printJsonList xs ++ "]"
  | .obj kvs => "\x7b" ++ printJsonPairs kvs ++ "\x7d"

/-- Comma-separated serialization of array elements. -/
def printJsonList : List Json → String
  | [] => ""
  | [x] => printJson x
  | x :: xs => printJson x ++ ", " ++ printJsonList xs

/-- Comma-separated serialization of object members. -/
def printJsonPairs : List (String × Json) → String
  | [] => ""
  | [(k, v)] => "\"" ++ k ++ "\": " ++ printJson v
  | (k, v) :: kvs => "\"" ++ k ++ "\": " ++ printJson v ++ ", " ++ printJsonPairs kvs

end

/-- Modelled from the spec: encoding of a directive in the wire format,
appended after the prose of the reply. -/
def encodeDirective (prose cmd : String) (params : List (String × Json)) : String :=
  prose ++ "<ACTION>" ++
    printJson (.obj [("command", .str cmd), ("params", .obj params)]) ++ "</ACTION>"

/-! ## The OS collaborator (psutil / filesystem / launcher) as explicit state -/

/-- One entry of the OS process table, together with the readings the
collaborator reports for it.  Readings are modelled at integral values
(`{:.1f}` then renders `n.0`); `denied` / `slow` model psutil raising
`AccessDenied` / `TimeoutExpired` on termination. -/
structure Proc where
  pid : Nat
  name : String
  cpu : Int
  memory : Int
  memMB : Int
  status : String
  threads : Int
  denied : Bool
  slow : Bool
deriving Repr, DecidableEq

/-- Rendered readings of `ProcessManager.get_system_info` (the collaborator
reads are external; only the text they render to matters downstream). -/
structure SysRec where
  cpuPercent : String
  cpuCount : String
  cpuFreq : String
  memPercent : String
  memUsed : String
  memTotal : String
  diskPercent : String
  diskUsed : String
  diskTotal : String
deriving Repr, DecidableEq

/-- A directory entry as `ProcessManager.list_files` renders it (`sizeKB`
is the already-rendered `{st_size/1024:.1f}` text). -/
structure FsEntry where
  name : String
  isDir : Bool
  sizeKB : String
deriving Repr, DecidableEq

/-- A filesystem path as seen by `list_files`. -/
inductive FsNode where
  | missing : FsNode
  | file (name : String) : FsNode
  | dir (entries : List FsEntry) : FsNode
deriving Repr

/-- The external OS state: process table, plus the outcomes of the
read-only collaborator queries.  `enumError` set means `process_iter`
raises (the `except` fallbacks of `get_top_processes` / `kill_by_name`);
`launch` is the opaque result text of `open_application`, whose mechanics
the spec places out of scope. -/
structure OsState where
  procs : List Proc
  enumError : Option String
  sys : Except String SysRec
  fs : List (String × FsNode)
  home : String
  launch : String → String

/-- Session state of main.py's `ShellAssistant`: the OS plus
`RecentIdentifiers` (`self.recent_pids`). -/
structure MainState where
  os : OsState
  recentPids : List Nat

/-- The collaborator capabilities a dispatch invokes, for stating frame
properties ("no collaborator call"). -/
inductive Call where
  | enumerate (count : Int) (sortBy : Json)
  | kill (pid : Int)
  | killByName (name : Json) (exclude : Json)
  | sysQuery
  | procQuery (pid : Int)
  | listDir (path : Json)
  | launch (app : String)
deriving Repr, DecidableEq

/-! ### Python dynamic-typing helpers used by the dispatcher -/

/-- Python `v == "s"` for a decoded JSON value. -/
def jsonEqStr (j : Json) (s : String) : Bool :=
  match j with
  | .str t => t == s
  | _ => false

/-- Python truthiness of a decoded JSON value (`Json.float` stands for an
unknown nonzero reading; `0.0` is outside the model). -/
def jsonTruthy : Json → Bool
  | .null => false
  | .bool b => b
  | .num n => n != 0
  | .float => true
  | .str s => s != ""
  | .arr xs => !xs.isEmpty
  | .obj kvs => !kvs.isEmpty

/-- Python `f"{v}"` for the values that flow into the modelled f-strings
(containers never reach these strings through the dispatch paths). -/
def jsonFStr : Json → String
  | .null => "None"
  | .bool true => "True"
  | .bool false => "False"
  | .num n => pyIntStr n
  | .float => "0.0"
  | .str s => s
  | .arr _ => "[...]"
  | .obj _ => "\x7b...\x7d"

/-- The `AttributeError` text `str(e)` of `v.attr` on a value without the
attribute. -/
def pyAttrErr (v : Json) (attr : String) : String :=
  "\x27" ++ pyTypeName v ++ "\x27 object has no attribute \x27" ++ attr ++ "\x27"

/-- Digits (with Python's between-digits underscores) to a value. -/
def pyDigitsCore : List Char → Nat → Option Nat
  | [], acc => some acc
  | '_' :: c :: t, acc =>
    if c.isDigit then pyDigitsCore t (acc * 10 + (c.toNat - 48)) else none
  | ['_'], _ => none
  | c :: t, acc =>
    if c.isDigit then pyDigitsCore t (acc * 10 + (c.toNat - 48)) else none

/-- A non-empty digit run with optional underscores. -/
def pyDigits : List Char → Option Nat
  | [] => none
  | c :: t => if c.isDigit then pyDigitsCore t (c.toNat - 48) else none

/-- Python `int(s)` on a string: surrounding whitespace, an optional sign,
decimal digits (unicode digits are outside the model). -/
def pyIntOfStr (s : String) : Option Int :=
  let t := ((s.data.dropWhile pyIsSpace).reverse.dropWhile pyIsSpace).reverse
  match t with
  | '+' :: r => (pyDigits r).map (fun n => (n : Int))
  | '-' :: r => (pyDigits r).map (fun n => -(n : Int))
  | r => (pyDigits r).map (fun n => (n : Int))

/-- Python `int(v)` on a decoded JSON value; `none` models the call
raising.  `int()` of a float truncates, but float values are outside the
model (see the module comment), so that case is excluded by hypothesis in
the theorems that reach it. -/
def pyInt : Json → Option Int
  | .num n => some n
  | .bool true => some 1
  | .bool false => some 0
  | .str s => pyIntOfStr s
  | _ => none

/-- `str(e)` of a failed `int(v)` (text approximated; no theorem depends
on it). -/
def pyIntErr (v : Json) : String :=
  match v with
  | .str s => "invalid literal for int() with base 10: \x27" ++ s ++ "\x27"
  | _ => "int() argument must be a string, a bytes-like object or a real number, not \x27"
      ++ pyTypeName v ++ "\x27"

/-- Python `str(xs)` for a list of process ids. -/
def pyNatListRepr (xs : List Nat) : String :=
  "[" ++ String.intercalate ", " (xs.map pyNatStr) ++ "]"

/-- Rendering of an integral collaborator reading under `{:.1f}` (and
`{:.2f}`, which renders the same digits for integral values up to the
trailing zeros; the distinction is outside the claims). -/
def fmtF (n : Int) : String :=
  pyIntStr n ++ ".0"

/-! ## ProcessManager (the process-control collaborator) -/

/-- `ProcessManager.get_top_processes` (identical in both files): every
table entry with its readings, sorted descending by the requested key
(`cpu` unless the key equals `"memory"`), truncated to `n`.  Python's sort
is stable; so is `insertionSort`. -/
def get_top_processes (procs : List Proc) (n : Nat) (sortBy : Json) : List Proc :=
  let sorted :=
    if jsonEqStr sortBy "memory" then
      procs.insertionSort (fun a b => b.memory ≤ a.memory)
    else
      procs.insertionSort (fun a b => b.cpu ≤ a.cpu)
  sorted.take n

/-- `ProcessManager.kill_process` of src/main.py (lines 251-269).
`psutil.Process` on a negative id raises `ValueError`, which none of the
handlers inside `kill_process` catch (`Except.error`); otherwise the
`NoSuchProcess` / `AccessDenied` / `TimeoutExpired` handlers produce the
messages below.  A termination that goes through (directly or after the
timeout escalation to `kill()`) removes the process from the table. -/
def main_kill_process (procs : List Proc) (pid : Int) :
    Except String (String × List Proc) :=
  if pid < 0 then .error ("pid must be a positive integer (got " ++ pyIntStr pid ++ ")")
  else
    match procs.find? (fun p => p.pid == pid.toNat) with
    | none => .ok ("❌ Process " ++ pyIntStr pid ++ " not found", procs)
    | some p =>
      if p.denied then
        .ok ("❌ Access denied for PID " ++ pyIntStr pid ++ ". Need admin rights", procs)
      else if p.slow then
        .ok ("✓ Process " ++ p.name ++ " (PID " ++ pyIntStr pid ++ ") force killed",
          procs.filter (fun q => q.pid != pid.toNat))
      else
        .ok ("✓ Process " ++ p.name ++ " (PID " ++ pyIntStr pid ++ ") terminated successfully",
          procs.filter (fun q => q.pid != pid.toNat))

/-- `ProcessManager.kill_process` of src/work.py (lines 236-254): same
logic, different message texts. -/
def work_kill_process (procs : List Proc) (pid : Int) :
    Except String (String × List Proc) :=
  if pid < 0 then .error ("pid must be a positive integer (got " ++ pyIntStr pid ++ ")")
  else
    match procs.find? (fun p => p.pid == pid.toNat) with
    | none => .ok ("Process with ID " ++ pyIntStr pid ++ " was not found on the system", procs)
    | some p =>
      if p.denied then
        .ok ("Access denied. Cannot terminate process " ++ pyIntStr pid ++
          ". You may need administrator rights", procs)
      else if p.slow then
        .ok ("Process " ++ p.name ++ " with ID " ++ pyIntStr pid ++ " was force killed",
          procs.filter (fun q => q.pid != pid.toNat))
      else
        .ok ("Process " ++ p.name ++ " with ID " ++ pyIntStr pid ++
          " has been terminated successfully",
          procs.filter (fun q => q.pid != pid.toNat))

/-- The per-process selection of `ProcessManager.kill_by_name`: the name
contains the requested substring case-insensitively, no excluded substring
occurs in it, and termination does not raise (`denied` entries are skipped
by the per-process `except (NoSuchProcess, AccessDenied)` clause). -/
def killByNameSelects (nm : String) (exclude : List String) (p : Proc) : Bool :=
  strContains (lowerStr p.name) (lowerStr nm) &&
    !(exclude.any (fun ex => strContains (lowerStr p.name) (lowerStr ex))) &&
    !p.denied

/-- The report entries (`killed` list) of `kill_by_name`, in table order. -/
def mainKilledEntries (procs : List Proc) (nm : String) (exclude : List String) : List String :=
  (procs.filter (killByNameSelects nm exclude)).map
    (fun p => p.name ++ " (PID " ++ pyNatStr p.pid ++ ")")

/-- The report entries of src/work.py's `kill_by_name`. -/
def workKilledEntries (procs : List Proc) (nm : String) (exclude : List String) : List String :=
  (procs.filter (killByNameSelects nm exclude)).map
    (fun p => p.name ++ " with PID " ++ pyNatStr p.pid)

/-- Python `any(ex.lower() in name.lower() for ex in exclude)`: lazy, so a
non-string element only raises (`Except.error`) when no earlier element
already matched. -/
def excludeCheck (p : Proc) : List Json → Except String Bool
  | [] => .ok false
  | v :: rest =>
    match v with
    | .str ex =>
      if strContains (lowerStr p.name) (lowerStr ex) then .ok true
      else excludeCheck p rest
    | _ => .error (pyAttrErr v "lower")

/-- The element sequence obtained by iterating the (truthy) `exclude`
value: a list yields its elements, a string its characters, a dict its
keys; other values raise `TypeError` when the first `any(...)` is
evaluated. -/
def excludeElems : Json → Except String (List Json)
  | .arr xs => .ok xs
  | .str s => .ok (s.data.map (fun c => Json.str ⟨[c]⟩))
  | .obj kvs => .ok (kvs.map (fun kv => Json.str kv.1))
  | v => .error ("\x27" ++ pyTypeName v ++ "\x27 object is not iterable")

/-- The `for proc in process_iter` loop of `ProcessManager.kill_by_name`
(src/main.py lines 277-284, src/work.py lines 262-269): returns the
`killed` report entries, the surviving table, and the exception (if any)
that aborted the loop.  A name match evaluates the exclusion `any(...)`;
an excluded or `denied` process survives (`continue`); otherwise the
process is terminated and reported.  An exception from the exclusion
expression leaves the current and the remaining processes untouched. -/
def kbnStep (nm : String) (exv : Json) (mkEntry : Proc → String) :
    List Proc → List String × List Proc × Option String
  | [] => ([], [], none)
  | p :: rest =>
    if strContains (lowerStr p.name) (lowerStr nm) then
      match (excludeElems exv).bind (excludeCheck p) with
      | .error e => ([], p :: rest, some e)
      | .ok true =>
        let r := kbnStep nm exv mkEntry rest
        (r.1, p :: r.2.1, r.2.2)
      | .ok false =>
        if p.denied then
          let r := kbnStep nm exv mkEntry rest
          (r.1, p :: r.2.1, r.2.2)
        else
          let r := kbnStep nm exv mkEntry rest
          (mkEntry p :: r.1, r.2.1, r.2.2)
    else
      let r := kbnStep nm exv mkEntry rest
      (r.1, p :: r.2.1, r.2.2)

/-- `ProcessManager.kill_by_name` of src/main.py (lines 271-291), given a
string name and the raw `exclude` argument (`None` from main.py's
dispatcher): `exclude = exclude or []`, run the loop, render the result or
the caught exception. -/
def main_kill_by_name (procs : List Proc) (nm : String) (excludeV : Json) :
    String × List Proc :=
  let exv := if jsonTruthy excludeV then excludeV else .arr []
  let r := kbnStep nm exv (fun p => p.name ++ " (PID " ++ pyNatStr p.pid ++ ")") procs
  match r.2.2 with
  | some e => ("❌ Error: " ++ e, r.2.1)
  | none =>
    if r.1.isEmpty then
      ("❌ No processes named \x27" ++ nm ++ "\x27 found", r.2.1)
    else
      ("✓ Terminated " ++ pyNatStr r.1.length ++ " process(es): " ++
        String.intercalate ", " r.1, r.2.1)

/-- `ProcessManager.kill_by_name` of src/work.py (lines 256-277): same
logic, different message texts. -/
def work_kill_by_name (procs : List Proc) (nm : String) (excludeV : Json) :
    String × List Proc :=
  let exv := if jsonTruthy excludeV then excludeV else .arr []
  let r := kbnStep nm exv (fun p => p.name ++ " with PID " ++ pyNatStr p.pid) procs
  match r.2.2 with
  | some e => ("Error occurred while killing processes: " ++ e, r.2.1)
  | none =>
    if r.1.isEmpty then
      ("No processes named " ++ nm ++ " were found on the system", r.2.1)
    else
      ("Successfully terminated " ++ pyNatStr r.1.length ++ " process(es): " ++
        String.intercalate ", " r.1, r.2.1)

/-- `ProcessManager.get_process_info` (identical in both files): `pid=0` is
falsy inside the function, a negative id makes `psutil.Process` raise
(caught by the function's generic handler), an absent id reports not-found,
`denied` models the readings raising `AccessDenied` (also caught
generically; text approximated). -/
def get_process_info (procs : List Proc) (pid : Int) : Except String Proc :=
  if pid = 0 then .error "PID not specified"
  else if pid < 0 then .error ("pid must be a positive integer (got " ++ pyIntStr pid ++ ")")
  else
    match procs.find? (fun p => p.pid == pid.toNat) with
    | none => .error ("Process " ++ pyIntStr pid ++ " not found")
    | some p => if p.denied then .error ("psutil.AccessDenied (pid=" ++ pyIntStr pid ++ ")") else .ok p

/-- Lookup of a path in the modelled filesystem. -/
def fsLookup (fs : List (String × FsNode)) (path : String) : FsNode :=
  ((fs.find? (fun e => e.1 = path)).map (·.2)).getD .missing

/-- `Path(p).expanduser()` (plain `~`; named-user forms are outside the
model). -/
def expanduser (home p : String) : String :=
  if pyStartswith p "~" then home ++ ⟨p.data.drop 1⟩ else p

/-- One rendered line of main.py's `list_files`. -/
def mainFsLine (e : FsEntry) : String :=
  if e.isDir then "📁 " ++ e.name ++ "\n"
  else "📄 " ++ e.name ++ " (" ++ e.sizeKB ++ " KB)\n"

/-- `ProcessManager.list_files` of src/main.py (lines 468-496) on a string
path: first 15 entries in sorted order, then the remainder count. -/
def main_list_files (os : OsState) (p : String) : String :=
  let p2 := expanduser os.home p
  match fsLookup os.fs p2 with
  | .missing => "❌ Path " ++ p2 ++ " does not exist"
  | .file nm => "ℹ️ This is a file: " ++ nm
  | .dir items =>
    if items.isEmpty then "ℹ️ Directory " ++ p2 ++ " is empty"
    else
      let sorted := items.insertionSort (fun a b => ¬ b.name < a.name)
      let body := String.join ((sorted.take 15).map mainFsLine)
      let tail := if items.length > 15 then
          "... and " ++ pyNatStr (items.length - 15) ++ " more items"
        else ""
      "Contents of " ++ p2 ++ ":\n" ++ body ++ tail

/-- One rendered line of work.py's `list_files`. -/
def workFsLine (e : FsEntry) : String :=
  if e.isDir then "[Folder] " ++ e.name ++ "\n"
  else "[File] " ++ e.name ++ " - " ++ e.sizeKB ++ " KB\n"

/-- `ProcessManager.list_files` of src/work.py (lines 323-351). -/
def work_list_files (os : OsState) (p : String) : String :=
  let p2 := expanduser os.home p
  match fsLookup os.fs p2 with
  | .missing => "Path " ++ p2 ++ " does not exist"
  | .file nm => "This is a file: " ++ nm
  | .dir items =>
    if items.isEmpty then "The directory " ++ p2 ++ " is empty"
    else
      let sorted := items.insertionSort (fun a b => ¬ b.name < a.name)
      let body := String.join ((sorted.take 15).map workFsLine)
      let tail := if items.length > 15 then
          "And " ++ pyNatStr (items.length - 15) ++ " more items"
        else ""
      "Contents of " ++ p2 ++ ":\n" ++ body ++ tail

/-! ## The Command Dispatchers (`ShellAssistant.execute_command`) -/

/-- Result of the outer `except` of main.py's dispatcher. -/
def mainExecErr (e : String) : String :=
  "❌ Execution error: " ++ e

/-- Result of the outer `except` of work.py's dispatcher. -/
def workExecErr (e : String) : String :=
  "Error executing command: " ++ e

/-- One listing line of main.py's `top_processes` branch. -/
def mainTopLine (i : Nat) (p : Proc) : String :=
  pyNatStr i ++ ". " ++ p.name ++ " (PID " ++ pyNatStr p.pid ++ ") - CPU " ++
    fmtF p.cpu ++ "%, Mem " ++ fmtF p.memory ++ "%\n"

/-- The listing body of main.py's `top_processes` branch
(`enumerate(processes, 1)`). -/
def mainTopLines (procs : List Proc) : String :=
  String.join (procs.enum.map (fun ip => mainTopLine (ip.1 + 1) ip.2))

/-- One listing line of work.py's `top_processes` branch. -/
def workTopLine (i : Nat) (p : Proc) : String :=
  pyNatStr i ++ ". " ++ p.name ++ " - PID " ++ pyNatStr p.pid ++ ": CPU " ++
    fmtF p.cpu ++ "%, Memory " ++ fmtF p.memory ++ "%\n"

/-- The listing body of work.py's `top_processes` branch. -/
def workTopLines (procs : List Proc) : String :=
  String.join (procs.enum.map (fun ip => workTopLine (ip.1 + 1) ip.2))

/-- `ShellAssistant.execute_command` of src/main.py (lines 938-1025).
Returns the result text, the session state after the dispatch, and the
collaborator capabilities invoked.  Branch by branch:
* `top_processes` (941-955): `count = max(1, min(int(params.get('count',
  5)), 20))`, `sort_by = params.get('sort_by', 'cpu')`; an enumeration
  error returns before `recent_pids` is touched, otherwise `recent_pids`
  is replaced by the listed pids; a non-string sort key then makes
  `sort_by.upper()` raise — after the replacement.
* `kill_process` (957-977): falsy pid → missing-parameter result;
  `int(pid)`; first termination; if the result text contains "not found"
  and `recent_pids` is non-empty, prefix-match the decimal strings, with
  the single / ambiguous / none outcomes of the source.
* `kill_by_name` (979-983): the `exclude` parameter is never read — the
  collaborator is called with its default `None`.
* `system_info`, `process_info`, `list_files`, `open_app`: direct calls
  into the corresponding collaborator models.
* anything else (1021-1022): the unknown-command result, no call.
A branch position where the source would raise (`params.get` on a
non-dict, `int()` failure, a non-string where an attribute is accessed)
returns the outer handler's `"❌ Execution error: ..."` text. -/
def main_execute_command (cmd : String) (params : Json) (st : MainState) :
    String × MainState × List Call :=
  if cmd = "top_processes" then
    match params with
    | .obj kvs =>
      let countV := (jsonLookup kvs "count").getD (.num 5)
      match pyInt countV with
      | none => (mainExecErr (pyIntErr countV), st, [])
      | some c0 =>
        let count := max 1 (min c0 20)
        let sortByV := (jsonLookup kvs "sort_by").getD (.str "cpu")
        match st.os.enumError with
        | some e => ("Error: " ++ e, st, [.enumerate count sortByV])
        | none =>
          let procs := get_top_processes st.os.procs count.toNat sortByV
          let st2 := { st with recentPids := procs.map (·.pid) }
          match sortByV with
          | .str sb =>
            ("Top " ++ pyIntStr count ++ " processes by " ++ upperStr sb ++ ":\n" ++
              mainTopLines procs, st2, [.enumerate count sortByV])
          | _ => (mainExecErr (pyAttrErr sortByV "upper"), st2, [.enumerate count sortByV])
    | _ => (mainExecErr (pyAttrErr params "get"), st, [])
  else if cmd = "kill_process" then
    match params with
    | .obj kvs =>
      let pidV := (jsonLookup kvs "pid").getD .null
      if !jsonTruthy pidV then ("❌ No PID specified", st, [])
      else
        match pyInt pidV with
        | none => (mainExecErr (pyIntErr pidV), st, [])
        | some n =>
          match main_kill_process st.os.procs n with
          | .error e => (mainExecErr e, st, [.kill n])
          | .ok (r1, procs1) =>
            let st1 := { st with os := { st.os with procs := procs1 } }
            if strContains (lowerStr r1) "not found" && !st.recentPids.isEmpty then
              match st.recentPids.filter (fun p => pyStartswith (pyNatStr p) (pyIntStr n)) with
              | [] => (r1, st1, [.kill n])
              | [m] =>
                match main_kill_process st1.os.procs (m : Int) with
                | .error e => (mainExecErr e, st1, [.kill n, .kill (m : Int)])
                | .ok (r2, procs2) =>
                  let st2 := { st1 with os := { st1.os with procs := procs2 } }
                  let result :=
                    if strContains (lowerStr r2) "terminated" then
                      "✓ Matched " ++ pyIntStr n ++ "* → " ++ pyNatStr m ++ ". " ++ r2
                    else r2
                  (result, st2, [.kill n, .kill (m : Int)])
              | ms =>
                ("❌ PID " ++ pyIntStr n ++ " ambiguous. Matches: " ++
                  pyNatListRepr (ms.take 5), st1, [.kill n])
            else (r1, st1, [.kill n])
    | _ => (mainExecErr (pyAttrErr params "get"), st, [])
  else if cmd = "kill_by_name" then
    match params with
    | .obj kvs =>
      let nameV := (jsonLookup kvs "name").getD .null
      if !jsonTruthy nameV then ("❌ No process name specified", st, [])
      else
        match st.os.enumError with
        | some e => ("❌ Error: " ++ e, st, [.killByName nameV .null])
        | none =>
          match nameV with
          | .str nm =>
            let r := main_kill_by_name st.os.procs nm .null
            (r.1, { st with os := { st.os with procs := r.2 } }, [.killByName nameV .null])
          | _ =>
            if st.os.procs.isEmpty then
              ("❌ No processes named \x27" ++ jsonFStr nameV ++ "\x27 found", st,
                [.killByName nameV .null])
            else
              ("❌ Error: " ++ pyAttrErr nameV "lower", st, [.killByName nameV .null])
    | _ => (mainExecErr (pyAttrErr params "get"), st, [])
  else if cmd = "system_info" then
    match st.os.sys with
    | .error e => ("Error: " ++ e, st, [.sysQuery])
    | .ok r =>
      ("System Status:\nCPU: " ++ r.cpuPercent ++ "% (" ++ r.cpuCount ++ " cores @ " ++
        r.cpuFreq ++ " MHz)\nMemory: " ++ r.memPercent ++ "% (" ++ r.memUsed ++ "/" ++
        r.memTotal ++ " GB)\nDisk: " ++ r.diskPercent ++ "% (" ++ r.diskUsed ++ "/" ++
        r.diskTotal ++ " GB)\nProcesses: " ++ pyNatStr st.os.procs.length, st, [.sysQuery])
  else if cmd = "process_info" then
    match params with
    | .obj kvs =>
      let pidV := (jsonLookup kvs "pid").getD .null
      if !jsonTruthy pidV then ("❌ No PID specified", st, [])
      else
        match pyInt pidV with
        | none => (mainExecErr (pyIntErr pidV), st, [])
        | some n =>
          match get_process_info st.os.procs n with
          | .error e => ("Error: " ++ e, st, [.procQuery n])
          | .ok p =>
            ("Process: " ++ p.name ++ " (PID " ++ jsonFStr pidV ++ ")\nStatus: " ++
              p.status ++ "\nCPU: " ++ fmtF p.cpu ++ "%\nMemory: " ++ fmtF p.memMB ++
              " MB\nThreads: " ++ pyIntStr p.threads, st, [.procQuery n])
    | _ => (mainExecErr (pyAttrErr params "get"), st, [])
  else if cmd = "list_files" then
    match params with
    | .obj kvs =>
      let pathV := (jsonLookup kvs "path").getD (.str ".")
      match pathV with
      | .str p => (main_list_files st.os p, st, [.listDir pathV])
      | _ =>
        ("❌ Error: argument should be a str or an os.PathLike object, not \x27" ++
          pyTypeName pathV ++ "\x27", st, [.listDir pathV])
    | _ => (mainExecErr (pyAttrErr params "get"), st, [])
  else if cmd = "open_app" then
    match params with
    | .obj kvs =>
      let appV := (jsonLookup kvs "app_name").getD .null
      if !jsonTruthy appV then ("❌ No application name specified", st, [])
      else
        match appV with
        | .str s => (st.os.launch s, st, [.launch s])
        | _ => (mainExecErr (pyAttrErr appV "lower"), st, [])
    | _ => (mainExecErr (pyAttrErr params "get"), st, [])
  else
    ("❌ Unknown command: " ++ cmd, st, [])

/-- `ShellAssistant.execute_command` of src/work.py (lines 508-569): the
same dispatcher without `open_app`, without any `recent_pids` recovery in
`kill_process`, and with the `exclude` parameter forwarded to
`kill_by_name`. -/
def work_execute_command (cmd : String) (params : Json) (os : OsState) :
    String × OsState × List Call :=
  if cmd = "top_processes" then
    match params with
    | .obj kvs =>
      let countV := (jsonLookup kvs "count").getD (.num 5)
      match pyInt countV with
      | none => (workExecErr (pyIntErr countV), os, [])
      | some c0 =>
        let count := max 1 (min c0 20)
        let sortByV := (jsonLookup kvs "sort_by").getD (.str "cpu")
        match os.enumError with
        | some e => ("Error: " ++ e, os, [.enumerate count sortByV])
        | none =>
          let procs := get_top_processes os.procs count.toNat sortByV
          match sortByV with
          | .str sb =>
            ("Top " ++ pyIntStr count ++ " processes by " ++ upperStr sb ++ ":\n" ++
              workTopLines procs, os, [.enumerate count sortByV])
          | _ => (workExecErr (pyAttrErr sortByV "upper"), os, [.enumerate count sortByV])
    | _ => (workExecErr (pyAttrErr params "get"), os, [])
  else if cmd = "kill_process" then
    match params with
    | .obj kvs =>
      let pidV := (jsonLookup kvs "pid").getD .null
      if jsonTruthy pidV then
        match pyInt pidV with
        | none => (workExecErr (pyIntErr pidV), os, [])
        | some n =>
          match work_kill_process os.procs n with
          | .error e => (workExecErr e, os, [.kill n])
          | .ok (r, procs2) => (r, { os with procs := procs2 }, [.kill n])
      else ("Please specify a PID", os, [])
    | _ => (workExecErr (pyAttrErr params "get"), os, [])
  else if cmd = "kill_by_name" then
    match params with
    | .obj kvs =>
      let nameV := (jsonLookup kvs "name").getD .null
      let excludeV := (jsonLookup kvs "exclude").getD (.arr [])
      if jsonTruthy nameV then
        match os.enumError with
        | some e =>
          ("Error occurred while killing processes: " ++ e, os, [.killByName nameV excludeV])
        | none =>
          match nameV with
          | .str nm =>
            let r := work_kill_by_name os.procs nm excludeV
            (r.1, { os with procs := r.2 }, [.killByName nameV excludeV])
          | _ =>
            if os.procs.isEmpty then
              ("No processes named " ++ jsonFStr nameV ++ " were found on the system", os,
                [.killByName nameV excludeV])
            else
              ("Error occurred while killing processes: " ++ pyAttrErr nameV "lower", os,
                [.killByName nameV excludeV])
      else ("Please specify a process name", os, [])
    | _ => (workExecErr (pyAttrErr params "get"), os, [])
  else if cmd = "system_info" then
    match os.sys with
    | .error e => ("Error: " ++ e, os, [.sysQuery])
    | .ok r =>
      ("System Information:\nCPU Usage: " ++ r.cpuPercent ++ "%\nMemory Usage: " ++
        r.memPercent ++ "% (" ++ r.memUsed ++ "/" ++ r.memTotal ++
        " GB)\nDisk Usage: " ++ r.diskPercent ++ "%\nActive Processes: " ++
        pyNatStr os.procs.length, os, [.sysQuery])
  else if cmd = "process_info" then
    match params with
    | .obj kvs =>
      let pidV := (jsonLookup kvs "pid").getD .null
      if jsonTruthy pidV then
        match pyInt pidV with
        | none => (workExecErr (pyIntErr pidV), os, [])
        | some n =>
          match get_process_info os.procs n with
          | .error e => ("Error: " ++ e, os, [.procQuery n])
          | .ok p =>
            ("Process: " ++ p.name ++ " (PID " ++ jsonFStr pidV ++ ")\nCPU: " ++
              fmtF p.cpu ++ "% | Memory: " ++ fmtF p.memMB ++ " MB", os, [.procQuery n])
      else ("Please specify a PID", os, [])
    | _ => (workExecErr (pyAttrErr params "get"), os, [])
  else if cmd = "list_files" then
    match params with
    | .obj kvs =>
      let pathV := (jsonLookup kvs "path").getD (.str ".")
      match pathV with
      | .str p => (work_list_files os p, os, [.listDir pathV])
      | _ =>
        ("Error: argument should be a str or an os.PathLike object, not \x27" ++
          pyTypeName pathV ++ "\x27", os, [.listDir pathV])
    | _ => (workExecErr (pyAttrErr params "get"), os, [])
  else
    ("Unknown command: " ++ cmd, os, [])

/-! ## Auxiliary definitions for the round-trip and the claim statements -/

/-- The fixed command table of main.py's dispatcher. -/
def mainKnownCommands : List String :=
  ["top_processes", "kill_process", "kill_by_name", "system_info",
   "process_info", "list_files", "open_app"]

/-- The fixed command table of work.py's dispatcher (no `open_app`). -/
def workKnownCommands : List String :=
  ["top_processes", "kill_process", "kill_by_name", "system_info",
   "process_info", "list_files"]

/-- A character that passes unescaped through the JSON wire format and
cannot open a marker: not a quote, not a backslash, not a control
character, not `<`. -/
def safeChar (c : Char) : Bool :=
  c != '"' && c != '\\' && 32 ≤ c.toNat && c != '<'

/-- All characters of a string safe for the wire format. -/
def safeStr (s : String) : Bool :=
  s.data.all safeChar

mutual

/-- A directive value that survives the wire format verbatim: every string
safe, no floats. -/
def Json.safe : Json → Bool
  | .null => true
  | .bool _ => true
  | .num _ => true
  | .float => false
  | .str s => safeStr s
  | .arr xs => Json.safeList xs
  | .obj kvs => Json.safePairs kvs

/-- Safety of array elements. -/
def Json.safeList : List Json → Bool
  | [] => true
  | x :: xs => Json.safe x && Json.safeList xs

/-- Safety of object members (keys included). -/
def Json.safePairs : List (String × Json) → Bool
  | [] => true
  | (k, v) :: kvs => safeStr k && Json.safe v && Json.safePairs kvs

end

mutual

/-- Parser fuel sufficient for a value (measures the nesting of
`parseVal` / `parseElemSeq` / `parseMemberSeq` calls). -/
def jfuel : Json → Nat
  | .arr xs => jfuelList xs + 1
  | .obj kvs => jfuelPairs kvs + 1
  | _ => 1

/-- Fuel sufficient for an element sequence. -/
def jfuelList : List Json → Nat
  | [] => 1
  | x :: xs => max (jfuel x) (jfuelList xs) + 1

/-- Fuel sufficient for a member sequence. -/
def jfuelPairs : List (String × Json) → Nat
  | [] => 1
  | (_, v) :: kvs => max (jfuel v) (jfuelPairs kvs) + 1

end

/-- A remainder at which a printed value may legitimately stop: the end of
input or a separator/closer. -/
def stopOk : List Char → Bool
  | [] => true
  | c :: _ => c == ',' || c == ']' || c == '\x7d'

/-- Sample collaborator readings for concrete evaluations. -/
def sampleSys : SysRec :=
  ⟨"5.0", "8", "2400", "40.0", "6.4", "16.0", "70.0", "100.0", "200.0"⟩

/-- A live, unprotected process with the given identity and readings. -/
def sampleProc (pid : Nat) (nm : String) (cpu mem : Int) : Proc :=
  ⟨pid, nm, cpu, mem, 100, "running", 4, false, false⟩

/-- A healthy OS state holding the given process table. -/
def osOf (procs : List Proc) : OsState :=
  ⟨procs, none, .ok sampleSys, [], "/home/user", fun _ => "started"⟩

/-! # Theorems -/

/-! ## Generic lemmas about the string primitives -/

theorem findSub_isSome_of_infix : ∀ {l pat : List Char}, pat <:+: l →
    (findSub l pat).isSome = true := by
  intro l
  induction l with
  | nil =>
    intro pat h
    rw [List.infix_nil] at h
    subst h
    rfl
  | cons c t ih =>
    intro pat h
    by_cases hp : pat.isPrefixOf (c :: t)
    · simp [findSub, hp]
    · have ht : pat <:+: t := by
        rcases List.infix_cons_iff.1 h with h1 | h2
        · exact absurd (List.isPrefixOf_iff_prefix.2 h1) hp
        · exact h2
      have hpb : pat.isPrefixOf (c :: t) = false := by
        cases hx : pat.isPrefixOf (c :: t)
        · rfl
        · exact absurd hx hp
      simp only [findSub, hpb, Bool.false_eq_true, if_false]
      simpa using ih ht

theorem strContains_of_infix {s pat : String} (h : pat.data <:+: s.data) :
    strContains s pat = true :=
  findSub_isSome_of_infix h

/-! ## C4 and C9: extraction without a marker pair -/

/-- Shared shape: when the marker-pair condition of the extractor fails,
the reply is returned whole, with no command and no params. -/
theorem chatExtract_no_pair {msg : String}
    (h : ¬(strContains msg "<ACTION>" = true ∧ strContains msg "</ACTION>" = true)) :
    chatExtract msg = (msg, none, none) := by
  have hb : (strContains msg "<ACTION>" && strContains msg "</ACTION>") = false := by
    cases h1 : strContains msg "<ACTION>" <;> cases h2 : strContains msg "</ACTION>" <;>
      simp_all
  unfold chatExtract
  simp [hb]

/-- C4 (amended): for every assistant reply without a marker pair, the
Directive Extractor returns command = none and prose equal to the full
input unchanged — the source applies no trimming on this path. -/
theorem spec_c4_no_marker_untrimmed (msg : String)
    (h : ¬(strContains msg "<ACTION>" = true ∧ strContains msg "</ACTION>" = true)) :
    chatExtract msg = (msg, none, none) :=
  chatExtract_no_pair h

theorem spec_c4_no_marker_untrimmed_witness :
    (¬(strContains "  hi  " "<ACTION>" = true ∧ strContains "  hi  " "</ACTION>" = true)) ∧
    chatExtract "  hi  " = ("  hi  ", none, none) :=
  ⟨by decide, spec_c4_no_marker_untrimmed "  hi  " (by decide)⟩

/-- C4 counterexample: on the reply `"  hi  "` (no marker pair) the
extractor returns the input untrimmed, not the trimmed prose the claim
states. -/
theorem spec_c4_counterexample :
    strContains "  hi  " "<ACTION>" = false ∧
    (chatExtract "  hi  ").2.1 = none ∧
    (chatExtract "  hi  ").1 ≠ pyStrip "  hi  " := by
  refine ⟨by decide, rfl, by decide⟩

/-- C9: an opening marker without a closing marker is treated as no
directive at all — command = none and the entire reply, including the
literal `<ACTION>` text, is returned untrimmed as the prose. -/
theorem spec_c9_unclosed_marker (msg : String)
    (h1 : strContains msg "<ACTION>" = true)
    (h2 : strContains msg "</ACTION>" = false) :
    chatExtract msg = (msg, none, none) :=
  chatExtract_no_pair (by simp [h1, h2])

theorem spec_c9_unclosed_marker_witness :
    strContains " ok <ACTION>\x7b\"command\": \"x\"" "<ACTION>" = true ∧
    strContains " ok <ACTION>\x7b\"command\": \"x\"" "</ACTION>" = false ∧
    chatExtract " ok <ACTION>\x7b\"command\": \"x\"" =
      (" ok <ACTION>\x7b\"command\": \"x\"", none, none) :=
  ⟨by decide, by decide,
    spec_c9_unclosed_marker " ok <ACTION>\x7b\"command\": \"x\"" (by decide) (by decide)⟩

/-! ## C8: unknown command identifiers -/

/-- C8: a command identifier outside the fixed table dispatches to the
unknown-command result in both files, leaves the state untouched and
invokes no collaborator capability (empty call trace); the branch is a
plain string build, so no exception can propagate. -/
theorem spec_c8_unknown_command (cmd : String) (params : Json) (st : MainState)
    (os : OsState) (h : cmd ∉ mainKnownCommands) :
    main_execute_command cmd params st = ("❌ Unknown command: " ++ cmd, st, []) ∧
    cmd ∉ workKnownCommands ∧
    work_execute_command cmd params os = ("Unknown command: " ++ cmd, os, []) := by
  simp only [mainKnownCommands, List.mem_cons, List.not_mem_nil, or_false, not_or] at h
  obtain ⟨h1, h2, h3, h4, h5, h6, h7⟩ := h
  refine ⟨?_, ?_, ?_⟩
  · simp only [main_execute_command, if_neg h1, if_neg h2, if_neg h3, if_neg h4,
      if_neg h5, if_neg h6, if_neg h7]
  · simp only [workKnownCommands, List.mem_cons, List.not_mem_nil, or_false, not_or]
    exact ⟨h1, h2, h3, h4, h5, h6⟩
  · simp only [work_execute_command, if_neg h1, if_neg h2, if_neg h3, if_neg h4,
      if_neg h5, if_neg h6]

theorem spec_c8_unknown_command_witness :
    "reboot-system" ∉ mainKnownCommands ∧
    main_execute_command "reboot-system" (.obj []) ⟨osOf [], []⟩ =
      ("❌ Unknown command: reboot-system", ⟨osOf [], []⟩, []) ∧
    work_execute_command "reboot-system" (.obj []) (osOf []) =
      ("Unknown command: reboot-system", osOf [], []) := by
  have h := spec_c8_unknown_command "reboot-system" (.obj []) ⟨osOf [], []⟩ (osOf [])
    (by decide)
  exact ⟨by decide, h.1, h.2.2⟩

/-! ## C3: count clamping and sort-key default of `top_processes` -/

/-- The collaborator call a main.py `top_processes` dispatch with a
parseable count performs. -/
theorem main_top_trace (st : MainState) (kvs : List (String × Json)) (c0 : Int)
    (h : pyInt ((jsonLookup kvs "count").getD (.num 5)) = some c0) :
    (main_execute_command "top_processes" (.obj kvs) st).2.2 =
      [.enumerate (max 1 (min c0 20)) ((jsonLookup kvs "sort_by").getD (.str "cpu"))] := by
  unfold main_execute_command
  rw [if_pos rfl]
  simp only [h]
  cases henum : st.os.enumError with
  | some e => simp
  | none =>
    cases hsv : (jsonLookup kvs "sort_by").getD (.str "cpu") <;> simp

/-- The same for work.py. -/
theorem work_top_trace (os : OsState) (kvs : List (String × Json)) (c0 : Int)
    (h : pyInt ((jsonLookup kvs "count").getD (.num 5)) = some c0) :
    (work_execute_command "top_processes" (.obj kvs) os).2.2 =
      [.enumerate (max 1 (min c0 20)) ((jsonLookup kvs "sort_by").getD (.str "cpu"))] := by
  unfold work_execute_command
  rw [if_pos rfl]
  simp only [h]
  cases henum : os.enumError with
  | some e => simp
  | none =>
    cases hsv : (jsonLookup kvs "sort_by").getD (.str "cpu") <;> simp

/-- C3: on every `top_processes` dispatch, an integer count parameter is
clamped into [1, 20] before the enumeration collaborator is invoked (0
becomes 1, 50 becomes 20, in-range values pass through), an absent count
defaults to 5, and an absent sort-key is passed to the collaborator as
`"cpu"` — in both dispatchers. -/
theorem spec_c3_top_normalization (st : MainState) (os : OsState) :
    (∀ (kvs : List (String × Json)) (n : Int),
      jsonLookup kvs "count" = some (.num n) →
      ∃ c sb,
        (main_execute_command "top_processes" (.obj kvs) st).2.2 = [.enumerate c sb] ∧
        (work_execute_command "top_processes" (.obj kvs) os).2.2 = [.enumerate c sb] ∧
        1 ≤ c ∧ c ≤ 20 ∧ (n = 0 → c = 1) ∧ (n = 50 → c = 20) ∧
        (1 ≤ n → n ≤ 20 → c = n)) ∧
    (∀ kvs : List (String × Json),
      jsonLookup kvs "count" = none → jsonLookup kvs "sort_by" = none →
      (main_execute_command "top_processes" (.obj kvs) st).2.2 =
        [.enumerate 5 (.str "cpu")] ∧
      (work_execute_command "top_processes" (.obj kvs) os).2.2 =
        [.enumerate 5 (.str "cpu")]) := by
  constructor
  · intro kvs n h
    have hp : pyInt ((jsonLookup kvs "count").getD (.num 5)) = some n := by
      simp [h, pyInt]
    refine ⟨max 1 (min n 20), (jsonLookup kvs "sort_by").getD (.str "cpu"),
      main_top_trace st kvs n hp, work_top_trace os kvs n hp, ?_, ?_, ?_, ?_, ?_⟩
    · exact le_max_left 1 _
    · omega
    · intro e; subst e; rfl
    · intro e; subst e; rfl
    · intro h1 h2; omega
  · intro kvs hc hs
    have hp : pyInt ((jsonLookup kvs "count").getD (.num 5)) = some 5 := by
      simp [hc, pyInt]
    have hm := main_top_trace st kvs 5 hp
    have hw := work_top_trace os kvs 5 hp
    rw [hs] at hm hw
    constructor
    · rw [hm]; norm_num
    · rw [hw]; norm_num

theorem spec_c3_top_normalization_witness :
    (∃ sb, (main_execute_command "top_processes" (.obj [("count", .num 0)])
      ⟨osOf [], []⟩).2.2 = [.enumerate 1 sb]) ∧
    (∃ sb, (main_execute_command "top_processes" (.obj [("count", .num 50)])
      ⟨osOf [], []⟩).2.2 = [.enumerate 20 sb]) ∧
    (main_execute_command "top_processes" (.obj []) ⟨osOf [], []⟩).2.2 =
      [.enumerate 5 (.str "cpu")] ∧
    (work_execute_command "top_processes" (.obj []) (osOf [])).2.2 =
      [.enumerate 5 (.str "cpu")] := by
  refine ⟨?_, ?_, ?_, ?_⟩
  · obtain ⟨c, sb, hm, _, _, _, h0, _, _⟩ :=
      (spec_c3_top_normalization ⟨osOf [], []⟩ (osOf [])).1 [("count", .num 0)] 0 rfl
    exact ⟨sb, by rw [hm, h0 rfl]⟩
  · obtain ⟨c, sb, hm, _, _, _, _, h50, _⟩ :=
      (spec_c3_top_normalization ⟨osOf [], []⟩ (osOf [])).1 [("count", .num 50)] 50 rfl
    exact ⟨sb, by rw [hm, h50 rfl]⟩
  · exact ((spec_c3_top_normalization ⟨osOf [], []⟩ (osOf [])).2 [] rfl rfl).1
  · exact ((spec_c3_top_normalization ⟨osOf [], []⟩ (osOf [])).2 [] rfl rfl).2

/-! ## C6: transcript cap -/

/-- C6 (amended): after every chat turn in which the LLM call returns a
reply, the transcript is at most 20 messages, it is a suffix of the old
transcript plus the new user/assistant pair (so evictions only drop the
oldest messages), and it equals exactly the most recent 20 of that list.
A turn whose LLM call raises appends the user message without truncating
(see the counterexample), so the cap holds only after successful turns. -/
theorem spec_c6_transcript_cap (hist : List ChatMsg) (u am : String) :
    ((chatTurn hist u (.ok am)).1).length ≤ 20 ∧
    (chatTurn hist u (.ok am)).1 <:+ hist ++ [ChatMsg.mk "user" u, ChatMsg.mk "assistant" am] ∧
    (chatTurn hist u (.ok am)).1 =
      (hist ++ [ChatMsg.mk "user" u, ChatMsg.mk "assistant" am]).drop
        ((hist.length + 2) - 20) := by
  unfold chatTurn
  simp only
  have hassoc : hist ++ [ChatMsg.mk "user" u] ++ [ChatMsg.mk "assistant" am] =
      hist ++ [ChatMsg.mk "user" u, ChatMsg.mk "assistant" am] := by simp
  rw [hassoc]
  have hlen : (hist ++ [ChatMsg.mk "user" u, ChatMsg.mk "assistant" am]).length =
      hist.length + 2 := by simp
  by_cases hl : (hist ++ [ChatMsg.mk "user" u, ChatMsg.mk "assistant" am]).length > 20
  · rw [if_pos hl]
    refine ⟨?_, ?_, ?_⟩
    · rw [List.length_drop]; omega
    · exact List.drop_suffix _ _
    · rw [hlen]
  · rw [if_neg hl]
    rw [hlen] at hl
    have h0 : hist.length + 2 - 20 = 0 := by omega
    refine ⟨by rw [hlen]; omega, List.suffix_refl _, by rw [h0]; simp⟩

/-- C6 counterexample: ten successful turns fill the transcript to 20;
an eleventh turn whose LLM call raises (for example a rate-limit error)
appends the user message and returns through the outer handler without
truncating, leaving 21 messages — the cap is exceeded after a completed
turn. -/
theorem spec_c6_counterexample :
    20 < (chatTurns [] (List.replicate 10 ("u", Except.ok "a") ++
      [("u", Except.error "rate limit")])).length := by
  decide

/-! ## C5: totality and fail-softness of the extractor -/

/-- C5 (amended): the extractor is a total function (every Python
exception path is a value of the model), and when the enclosed substring
fails to parse as JSON at all, the directive degrades to command = none
with the prose before the opening marker still returned.  When the
enclosed substring parses as JSON that is not a record, however, the
`AttributeError` from `action_data.get` is caught by `chat`'s outer
handler: still no exception reaches the caller, but the returned text is
the handler's error message, not the prose (see the counterexample). -/
theorem spec_c5_failsoft (msg : String)
    (h1 : strContains msg "<ACTION>" = true)
    (h2 : strContains msg "</ACTION>" = true)
    (hp : parseJson (pyStrip (pySlice msg (strFind msg "<ACTION>" + 8)
      (strFind msg "</ACTION>"))) = none) :
    chatExtract msg =
      (pyStrip (pySlice msg 0 (strFind msg "<ACTION>")), none, none) := by
  unfold chatExtract
  rw [if_pos (by rw [h1, h2]; rfl)]
  simp only [hp]

theorem spec_c5_failsoft_witness :
    strContains "hi <ACTION>\x7bbad</ACTION>" "<ACTION>" = true ∧
    strContains "hi <ACTION>\x7bbad</ACTION>" "</ACTION>" = true ∧
    parseJson (pyStrip (pySlice "hi <ACTION>\x7bbad</ACTION>"
      (strFind "hi <ACTION>\x7bbad</ACTION>" "<ACTION>" + 8)
      (strFind "hi <ACTION>\x7bbad</ACTION>" "</ACTION>"))) = none ∧
    chatExtract "hi <ACTION>\x7bbad</ACTION>" =
      (pyStrip (pySlice "hi <ACTION>\x7bbad</ACTION>" 0
        (strFind "hi <ACTION>\x7bbad</ACTION>" "<ACTION>")), none, none) :=
  ⟨by decide, by decide, by decide,
    spec_c5_failsoft "hi <ACTION>\x7bbad</ACTION>" (by decide) (by decide) (by decide)⟩

/-- C5 counterexample: with `42` between the markers — valid JSON that is
not a structured record — the code reaches `action_data.get('command')`,
which raises `AttributeError`; the outer handler returns its text, so the
prose `"Okay."` before the marker is not returned, contradicting the
claim's "still returning the prose preceding the opening marker". -/
theorem spec_c5_counterexample :
    (∀ kvs : List (String × Json), parseJson "42" ≠ some (.obj kvs)) ∧
    (chatExtract "Okay. <ACTION>42</ACTION>").2.1 = none ∧
    (chatExtract "Okay. <ACTION>42</ACTION>").1 ≠ "Okay." := by
  refine ⟨?_, rfl, by decide⟩
  intro kvs h
  rw [show parseJson "42" = some (Json.num 42) from rfl] at h
  simp at h

/-! ## C2: kill-by-name exclusion -/

/-- The lazy exclusion check agrees with `List.any` when every exclusion
entry is a string. -/
theorem excludeCheck_strs (p : Proc) (exs : List String) :
    excludeCheck p (exs.map Json.str) =
      .ok (exs.any (fun ex => strContains (lowerStr p.name) (lowerStr ex))) := by
  induction exs with
  | nil => rfl
  | cons e t ih =>
    simp only [List.map_cons, excludeCheck, List.any_cons]
    by_cases hc : strContains (lowerStr p.name) (lowerStr e) = true
    · simp [hc]
    · simp only [Bool.not_eq_true] at hc
      simp [hc, ih]

/-- With a string name and an all-string exclusion list, the
`kill_by_name` loop never raises, terminates exactly the processes that
match the name and no excluded substring (and are not protected), and
reports exactly those. -/
theorem kbnStep_strs (nm : String) (exs : List String) (mk : Proc → String) :
    ∀ procs : List Proc, kbnStep nm (.arr (exs.map Json.str)) mk procs =
      ((procs.filter (killByNameSelects nm exs)).map mk,
        procs.filter (fun p => !killByNameSelects nm exs p), none) := by
  intro procs
  induction procs with
  | nil => rfl
  | cons p rest ih =>
    simp only [kbnStep, excludeElems, Except.bind, excludeCheck_strs]
    by_cases h1 : strContains (lowerStr p.name) (lowerStr nm) = true
    · by_cases h2 : exs.any (fun ex => strContains (lowerStr p.name) (lowerStr ex)) = true
      · have hsel : killByNameSelects nm exs p = false := by
          simp [killByNameSelects, h1, h2]
        simp [h1, h2, ih, hsel]
      · simp only [Bool.not_eq_true] at h2
        by_cases h3 : p.denied = true
        · have hsel : killByNameSelects nm exs p = false := by
            simp [killByNameSelects, h1, h2, h3]
          simp [h1, h2, h3, ih, hsel]
        · simp only [Bool.not_eq_true] at h3
          have hsel : killByNameSelects nm exs p = true := by
            simp [killByNameSelects, h1, h2, h3]
          simp [h1, h2, h3, ih, hsel]
    · simp only [Bool.not_eq_true] at h1
      have hsel : killByNameSelects nm exs p = false := by
        simp [killByNameSelects, h1]
      simp [h1, ih, hsel]

/-- `work.py`'s `kill_by_name` on a string name and string exclusions:
full characterization of message and surviving table. -/
theorem work_kbn_strs (procs : List Proc) (nm : String) (exs : List String) :
    work_kill_by_name procs nm (.arr (exs.map Json.str)) =
      ((if (workKilledEntries procs nm exs).isEmpty then
          "No processes named " ++ nm ++ " were found on the system"
        else
          "Successfully terminated " ++ pyNatStr (workKilledEntries procs nm exs).length ++
            " process(es): " ++ String.intercalate ", " (workKilledEntries procs nm exs)),
        procs.filter (fun p => !killByNameSelects nm exs p)) := by
  unfold work_kill_by_name
  have hor : (if jsonTruthy (.arr (exs.map Json.str)) then Json.arr (exs.map Json.str)
      else .arr []) = .arr (exs.map Json.str) := by
    cases exs <;> simp [jsonTruthy]
  rw [hor]
  simp [kbnStep_strs, workKilledEntries]
  split <;> rfl

/-- C2 (amended): for every dispatch of `kill_by_name` through work.py's
dispatcher, with a (non-empty) string name and a list of string exclusion
patterns, the surviving table is exactly the processes that fail the
selection, the result text is built from exactly the selected processes —
and any process whose name contains an excluded substring
(case-insensitively) survives and is absent from the reported kill list.
In main.py the dispatcher drops the `exclude` parameter before calling the
collaborator, so the guarantee fails there (see the counterexample). -/
theorem spec_c2_exclusion (os : OsState) (kvs : List (String × Json)) (nm : String)
    (exs : List String)
    (hname : jsonLookup kvs "name" = some (.str nm))
    (hnm : nm ≠ "")
    (hex : jsonLookup kvs "exclude" = some (.arr (exs.map Json.str)))
    (henum : os.enumError = none) :
    (work_execute_command "kill_by_name" (.obj kvs) os).2.1.procs =
      os.procs.filter (fun p => !killByNameSelects nm exs p) ∧
    (work_execute_command "kill_by_name" (.obj kvs) os).1 =
      (if (workKilledEntries os.procs nm exs).isEmpty then
        "No processes named " ++ nm ++ " were found on the system"
      else
        "Successfully terminated " ++ pyNatStr (workKilledEntries os.procs nm exs).length ++
          " process(es): " ++ String.intercalate ", " (workKilledEntries os.procs nm exs)) ∧
    (∀ p ∈ os.procs,
      (∃ ex ∈ exs, strContains (lowerStr p.name) (lowerStr ex) = true) →
      p ∈ (work_execute_command "kill_by_name" (.obj kvs) os).2.1.procs ∧
      p ∉ os.procs.filter (killByNameSelects nm exs)) := by
  have hout : work_execute_command "kill_by_name" (.obj kvs) os =
      ((if (workKilledEntries os.procs nm exs).isEmpty then
          "No processes named " ++ nm ++ " were found on the system"
        else
          "Successfully terminated " ++ pyNatStr (workKilledEntries os.procs nm exs).length ++
            " process(es): " ++ String.intercalate ", " (workKilledEntries os.procs nm exs)),
        { os with procs := os.procs.filter (fun p => !killByNameSelects nm exs p) },
        [.killByName (.str nm) (.arr (exs.map Json.str))]) := by
    unfold work_execute_command
    rw [if_neg (by decide), if_neg (by decide), if_pos rfl]
    simp only [hname, hex, Option.getD_some]
    have htr : jsonTruthy (.str nm) = true := by simp [jsonTruthy, hnm]
    rw [htr]
    simp only [henum, if_true]
    rw [work_kbn_strs]
  refine ⟨by rw [hout], by rw [hout], ?_⟩
  intro p hp hex2
  obtain ⟨ex, hexmem, hexcont⟩ := hex2
  have hany : exs.any (fun ex => strContains (lowerStr p.name) (lowerStr ex)) = true :=
    List.any_eq_true.2 ⟨ex, hexmem, hexcont⟩
  have hsel : killByNameSelects nm exs p = false := by
    simp [killByNameSelects, hany]
  constructor
  · rw [hout]
    exact List.mem_filter.2 ⟨hp, by simp [hsel]⟩
  · intro hmem
    exact absurd (List.of_mem_filter hmem) (by simp [hsel])

theorem spec_c2_exclusion_witness :
    (work_execute_command "kill_by_name"
      (.obj [("name", .str "chrome"), ("exclude", .arr [.str "helper"])])
      (osOf [sampleProc 10 "chrome" 5 1, sampleProc 11 "Chrome Helper" 1 1])).2.1.procs =
      [sampleProc 11 "Chrome Helper" 1 1] ∧
    (work_execute_command "kill_by_name"
      (.obj [("name", .str "chrome"), ("exclude", .arr [.str "helper"])])
      (osOf [sampleProc 10 "chrome" 5 1, sampleProc 11 "Chrome Helper" 1 1])).1 =
      "Successfully terminated 1 process(es): chrome with PID 10" := by
  have h := spec_c2_exclusion
    (osOf [sampleProc 10 "chrome" 5 1, sampleProc 11 "Chrome Helper" 1 1])
    [("name", .str "chrome"), ("exclude", .arr [.str "helper"])]
    "chrome" ["helper"] rfl (by decide) rfl rfl
  refine ⟨?_, ?_⟩
  · rw [h.1]; decide
  · rw [h.2.1]; decide

/-- C2 counterexample: main.py's dispatcher ignores the `exclude`
parameter (line 983 calls `kill_by_name(name)` only), so a dispatch with
name "chrome" and exclude ["helper"] terminates and reports a process
named "chrome helper" — the claim fails for main.py's dispatch. -/
theorem spec_c2_counterexample :
    strContains (lowerStr "chrome helper") (lowerStr "helper") = true ∧
    (main_execute_command "kill_by_name"
      (.obj [("name", .str "chrome"), ("exclude", .arr [.str "helper"])])
      ⟨osOf [sampleProc 7 "chrome helper" 1 1], []⟩).2.1.os.procs = [] ∧
    (main_execute_command "kill_by_name"
      (.obj [("name", .str "chrome"), ("exclude", .arr [.str "helper"])])
      ⟨osOf [sampleProc 7 "chrome helper" 1 1], []⟩).1 =
      "✓ Terminated 1 process(es): chrome helper (PID 7)" := by
  refine ⟨by decide, by decide, by decide⟩

/-! ## C10: the recent_pids frame property -/

/-- C10 (amended): `recent_pids` is replaced — wholesale, by the listed
pids in order — exactly by a `top_processes` dispatch whose count parses
and whose process enumeration succeeds (even if the dispatch subsequently
fails rendering a non-string sort key, see the counterexample); every
other command, a count that `int()` rejects, non-dict params, and an
enumeration error all leave it unchanged. -/
theorem spec_c10_recent_pids_frame (cmd : String) (params : Json) (st : MainState) :
    (cmd ≠ "top_processes" →
      (main_execute_command cmd params st).2.1.recentPids = st.recentPids) ∧
    ((∀ kvs : List (String × Json), params ≠ .obj kvs) →
      (main_execute_command "top_processes" params st).2.1.recentPids = st.recentPids) ∧
    (∀ kvs : List (String × Json), params = .obj kvs →
      (pyInt ((jsonLookup kvs "count").getD (.num 5)) = none →
        (main_execute_command "top_processes" params st).2.1.recentPids = st.recentPids) ∧
      (∀ c0 : Int, pyInt ((jsonLookup kvs "count").getD (.num 5)) = some c0 →
        (∀ e, st.os.enumError = some e →
          (main_execute_command "top_processes" params st).2.1.recentPids =
            st.recentPids) ∧
        (st.os.enumError = none →
          (main_execute_command "top_processes" params st).2.1.recentPids =
            (get_top_processes st.os.procs (max 1 (min c0 20)).toNat
              ((jsonLookup kvs "sort_by").getD (.str "cpu"))).map (·.pid)))) := by
  refine ⟨?_, ?_, ?_⟩
  · intro h
    unfold main_execute_command
    rw [if_neg h]
    repeat' (first | rfl | split | simp only)
  · intro h
    unfold main_execute_command
    rw [if_pos rfl]
    match params with
    | .obj kvs => exact absurd rfl (h kvs)
    | .null => rfl
    | .bool b => rfl
    | .num n => rfl
    | .float => rfl
    | .str s => rfl
    | .arr xs => rfl
  · intro kvs hk
    subst hk
    constructor
    · intro hc
      unfold main_execute_command
      rw [if_pos rfl]
      simp only [hc]
    · intro c0 hc
      constructor
      · intro e he
        unfold main_execute_command
        rw [if_pos rfl]
        simp only [hc, he]
      · intro he
        unfold main_execute_command
        rw [if_pos rfl]
        simp only [hc, he]
        cases hsv : (jsonLookup kvs "sort_by").getD (.str "cpu") <;> simp

theorem spec_c10_recent_pids_frame_witness :
    ("kill_process" ≠ "top_processes" ∧
      (main_execute_command "kill_process" (.obj [("pid", .num 7)])
        ⟨osOf [sampleProc 7 "p" 1 1], [99]⟩).2.1.recentPids = [99]) ∧
    (main_execute_command "top_processes" (.obj [])
      ⟨osOf [sampleProc 7 "p" 1 1], [99]⟩).2.1.recentPids = [7] := by
  constructor
  · exact ⟨by decide,
      (spec_c10_recent_pids_frame "kill_process" (.obj [("pid", .num 7)])
        ⟨osOf [sampleProc 7 "p" 1 1], [99]⟩).1 (by decide)⟩
  · have h := ((spec_c10_recent_pids_frame "top_processes" (.obj [])
      ⟨osOf [sampleProc 7 "p" 1 1], [99]⟩).2.2 [] rfl).2 5 rfl
    rw [(h.2 rfl)]
    decide

/-- C10 counterexample: a `top_processes` dispatch with a non-string sort
key replaces `recent_pids` (line 950) and then fails on
`sort_by.upper()`, returning an execution-error result — so an
unsuccessful list dispatch does mutate `recent_pids`, contradicting
"mutated only by a successful list-top-processes dispatch". -/
theorem spec_c10_counterexample :
    (main_execute_command "top_processes" (.obj [("sort_by", .num 3)])
      ⟨osOf [sampleProc 7 "p" 1 1], [99]⟩).2.1.recentPids = [7] ∧
    (main_execute_command "top_processes" (.obj [("sort_by", .num 3)])
      ⟨osOf [sampleProc 7 "p" 1 1], [99]⟩).1 =
      mainExecErr (pyAttrErr (.num 3) "upper") := by
  refine ⟨by decide, by decide⟩

/-! ## C1: fuzzy identifier recovery in main.py's kill-by-PID dispatch -/

/-- The lowercased not-found message of main.py's `kill_process` contains
the trigger substring `"not found"` for every requested id. -/
theorem main_notfound_contains (pid : Int) :
    strContains (lowerStr ("❌ Process " ++ pyIntStr pid ++ " not found")) "not found" = true := by
  apply strContains_of_infix
  have hdecomp : (lowerStr ("❌ Process " ++ pyIntStr pid ++ " not found")).data =
      (("❌ Process " ++ pyIntStr pid).data.map Char.toLower) ++ " not found".data := by
    simp only [lowerStr, String.data_append, List.map_append]
    congr 1
  rw [hdecomp]
  have h1 : "not found".data <:+ " not found".data := by decide
  exact (h1.trans (List.suffix_append _ _)).isInfix

/-- The lowercased success message of main.py's `kill_process` contains
the substitution trigger `"terminated"` for every process name. -/
theorem main_success_contains_terminated (nm : String) (pid : Int) :
    strContains (lowerStr ("✓ Process " ++ nm ++ " (PID " ++ pyIntStr pid ++
      ") terminated successfully")) "terminated" = true := by
  apply strContains_of_infix
  have hdecomp : (lowerStr ("✓ Process " ++ nm ++ " (PID " ++ pyIntStr pid ++
      ") terminated successfully")).data =
      (("✓ Process " ++ nm ++ " (PID " ++ pyIntStr pid).data.map Char.toLower) ++
        ") terminated successfully".data := by
    simp only [lowerStr, String.data_append, List.map_append]
    congr 1
  rw [hdecomp]
  have h1 : "terminated".data <:+: ") terminated successfully".data := by decide
  exact h1.trans (List.suffix_append _ _).isInfix

/-- C1: dispatching `kill_process` for a positive id that is not in the
process table (so the collaborator reports not-found), with a non-empty
`recent_pids`: the dispatcher filters the recent ids whose decimal string
starts with the requested id's decimal string.  No match: the original
not-found result, state unchanged, no second termination.  Exactly one
match `m`: termination is retried against `m` (the call trace shows both
kills), and when `m` is live and unprotected the result reports the
substitution and `m` is removed from the table.  Two or more matches: an
ambiguity result listing at most 5 candidates, no process terminated, no
second termination call. -/
theorem spec_c1_fuzzy_recovery (st : MainState) (kvs : List (String × Json)) (n : Int)
    (hpid : jsonLookup kvs "pid" = some (.num n))
    (hpos : 0 < n)
    (habsent : st.os.procs.find? (fun p => p.pid == n.toNat) = none)
    (hrecent : st.recentPids ≠ []) :
    (st.recentPids.filter (fun p => pyStartswith (pyNatStr p) (pyIntStr n)) = [] →
      main_execute_command "kill_process" (.obj kvs) st =
        ("❌ Process " ++ pyIntStr n ++ " not found", st, [.kill n])) ∧
    (∀ m, st.recentPids.filter (fun p => pyStartswith (pyNatStr p) (pyIntStr n)) = [m] →
      (main_execute_command "kill_process" (.obj kvs) st).2.2 =
        [.kill n, .kill (m : Int)] ∧
      (∀ q, st.os.procs.find? (fun p => p.pid == m) = some q →
        q.denied = false → q.slow = false →
        (main_execute_command "kill_process" (.obj kvs) st).1 =
          "✓ Matched " ++ pyIntStr n ++ "* → " ++ pyNatStr m ++ ". " ++
            ("✓ Process " ++ q.name ++ " (PID " ++ pyIntStr (m : Int) ++
              ") terminated successfully") ∧
        (main_execute_command "kill_process" (.obj kvs) st).2.1.os.procs =
          st.os.procs.filter (fun p => p.pid != m))) ∧
    (2 ≤ (st.recentPids.filter (fun p => pyStartswith (pyNatStr p) (pyIntStr n))).length →
      main_execute_command "kill_process" (.obj kvs) st =
        ("❌ PID " ++ pyIntStr n ++ " ambiguous. Matches: " ++
          pyNatListRepr ((st.recentPids.filter
            (fun p => pyStartswith (pyNatStr p) (pyIntStr n))).take 5), st, [.kill n]) ∧
      ((st.recentPids.filter (fun p => pyStartswith (pyNatStr p) (pyIntStr n))).take 5).length
        ≤ 5) := by
  have hne : n ≠ 0 := by omega
  have htr : (!jsonTruthy (Json.num n)) = false := by
    simp [jsonTruthy, hne]
  have hnotneg : ¬ n < 0 := by omega
  have hkill1 : main_kill_process st.os.procs n =
      .ok ("❌ Process " ++ pyIntStr n ++ " not found", st.os.procs) := by
    unfold main_kill_process
    rw [if_neg hnotneg, habsent]
  have hguard : (strContains (lowerStr ("❌ Process " ++ pyIntStr n ++ " not found"))
      "not found" && !st.recentPids.isEmpty) = true := by
    rw [main_notfound_contains]
    simpa using hrecent
  have hbase : ∀ G : (String × MainState × List Call) → Prop,
      (G (match st.recentPids.filter (fun p => pyStartswith (pyNatStr p) (pyIntStr n)) with
          | [] => (("❌ Process " ++ pyIntStr n ++ " not found"), st, [Call.kill n])
          | [m] =>
            match main_kill_process st.os.procs (m : Int) with
            | .error e => (mainExecErr e, st, [Call.kill n, Call.kill (m : Int)])
            | .ok (r2, procs2) =>
              (if strContains (lowerStr r2) "terminated" = true then
                  "✓ Matched " ++ pyIntStr n ++ "* → " ++ pyNatStr m ++ ". " ++ r2
                else r2,
                { st with os := { st.os with procs := procs2 } },
                [Call.kill n, Call.kill (m : Int)])
          | ms =>
            ("❌ PID " ++ pyIntStr n ++ " ambiguous. Matches: " ++
              pyNatListRepr (ms.take 5), st, [Call.kill n]))) →
      G (main_execute_command "kill_process" (.obj kvs) st) := by
    intro G hG
    unfold main_execute_command
    rw [if_neg (by decide), if_pos rfl]
    simp only [hpid, Option.getD_some, htr, Bool.false_eq_true, if_false, pyInt, hkill1,
      hguard, if_true]
    exact hG
  refine ⟨?_, ?_, ?_⟩
  · intro hm
    apply hbase (fun out => out = _)
    rw [hm]
  · intro m hm
    constructor
    · apply hbase (fun out => out.2.2 = _)
      rw [hm]
      simp only
      cases hk2 : main_kill_process st.os.procs (m : Int) with
      | error e => rfl
      | ok v => obtain ⟨r2, procs2⟩ := v; simp
    · intro q hq hden hslow
      have hk2 : main_kill_process st.os.procs (m : Int) =
          .ok ("✓ Process " ++ q.name ++ " (PID " ++ pyIntStr (m : Int) ++
            ") terminated successfully", st.os.procs.filter (fun p => p.pid != m)) := by
        unfold main_kill_process
        rw [if_neg (by omega)]
        simp only [Int.toNat_natCast, hq, hden, hslow, Bool.false_eq_true, if_false]
      constructor
      · apply hbase (fun out => out.1 = _)
        rw [hm]
        simp only
        rw [hk2]
        simp only [main_success_contains_terminated, if_true]
      · apply hbase (fun out => out.2.1.os.procs = _)
        rw [hm]
        simp only
        rw [hk2]
  · intro hlen
    have hform : ∃ a b rest, st.recentPids.filter
        (fun p => pyStartswith (pyNatStr p) (pyIntStr n)) = a :: b :: rest := by
      match hms : st.recentPids.filter (fun p => pyStartswith (pyNatStr p) (pyIntStr n)) with
      | [] => rw [hms] at hlen; simp at hlen
      | [a] => rw [hms] at hlen; simp at hlen
      | a :: b :: rest => exact ⟨a, b, rest, rfl⟩
    obtain ⟨a, b, rest, hms⟩ := hform
    constructor
    · apply hbase (fun out => out = _)
      rw [hms]
    · rw [hms]
      simp [List.length_take]

theorem spec_c1_fuzzy_recovery_witness :
    (main_execute_command "kill_process" (.obj [("pid", .num 432)])
      ⟨osOf [sampleProc 4321 "chrome" 5 1, sampleProc 9999 "code" 1 1],
        [4321, 9999]⟩).2.2 = [.kill 432, .kill ((4321 : Nat) : Int)] ∧
    (main_execute_command "kill_process" (.obj [("pid", .num 432)])
      ⟨osOf [sampleProc 4321 "chrome" 5 1, sampleProc 9999 "code" 1 1],
        [4321, 9999]⟩).1 =
      "✓ Matched " ++ pyIntStr 432 ++ "* → " ++ pyNatStr 4321 ++ ". " ++
        ("✓ Process " ++ (sampleProc 4321 "chrome" 5 1).name ++ " (PID " ++
          pyIntStr ((4321 : Nat) : Int) ++ ") terminated successfully") ∧
    (main_execute_command "kill_process" (.obj [("pid", .num 432)])
      ⟨osOf [sampleProc 4321 "chrome" 5 1, sampleProc 9999 "code" 1 1],
        [4321, 9999]⟩).2.1.os.procs = [sampleProc 9999 "code" 1 1] := by
  have h := spec_c1_fuzzy_recovery
    ⟨osOf [sampleProc 4321 "chrome" 5 1, sampleProc 9999 "code" 1 1], [4321, 9999]⟩
    [("pid", .num 432)] 432 rfl (by decide) (by decide) (by decide)
  have h2 := (h.2.1 4321 (by decide))
  have h3 := h2.2 (sampleProc 4321 "chrome" 5 1) (by decide) rfl rfl
  refine ⟨h2.1, h3.1, ?_⟩
  rw [h3.2]
  decide

/-! ## C7: round-trip of the directive wire format -/

/-- Every character `natDigitsAux` emits is one of the ten digit
characters, hence has all the side properties the parser lemmas need. -/
theorem natDigitsAux_goodChar : ∀ (f n : Nat), ∀ c ∈ natDigitsAux f n,
    c.isDigit = true ∧ jIsWs c = false ∧ c ≠ '<' ∧ c ≠ '-' ∧ c ≠ 'I' ∧
    c ≠ '.' ∧ c ≠ '"' ∧ c ≠ '\\' ∧ c ≠ 'e' ∧ c ≠ 'E' ∧ 32 ≤ c.toNat := by
  intro f
  induction f with
  | zero => intro n c hc; simp [natDigitsAux] at hc
  | succ g ih =>
    intro n c hc
    unfold natDigitsAux at hc
    by_cases h : n < 10
    · rw [if_pos h] at hc
      simp only [List.mem_singleton] at hc
      subst hc
      interval_cases n <;> exact ⟨by decide, by decide, by decide, by decide, by decide,
        by decide, by decide, by decide, by decide, by decide, by decide⟩
    · rw [if_neg h] at hc
      rcases List.mem_append.1 hc with h1 | h2
      · exact ih _ c h1
      · simp only [List.mem_singleton] at h2
        subst h2
        have hm : n % 10 < 10 := Nat.mod_lt _ (by omega)
        interval_cases hx : (n % 10) <;> exact ⟨by decide, by decide, by decide, by decide,
          by decide, by decide, by decide, by decide, by decide, by decide, by decide⟩

theorem natDigitsAux_ne_nil (f n : Nat) (hf : 0 < f) : natDigitsAux f n ≠ [] := by
  match f, hf with
  | g + 1, _ =>
    unfold natDigitsAux
    by_cases h : n < 10
    · simp [h]
    · simp [h]

/-- For a positive value the leading digit is nonzero. -/
theorem natDigitsAux_head_ne_zero : ∀ (f n : Nat), 0 < n → n < 10 ^ f →
    ∀ c cs, natDigitsAux f n = c :: cs → c ≠ '0' := by
  intro f
  induction f with
  | zero => intro n hn hf; omega
  | succ g ih =>
    intro n hn hf c cs heq
    unfold natDigitsAux at heq
    by_cases h : n < 10
    · rw [if_pos h] at heq
      simp only [List.cons.injEq] at heq
      obtain ⟨hc, -⟩ := heq
      subst hc
      interval_cases n <;> simp_all
    · rw [if_neg h] at heq
      have hg : 0 < g := by
        by_contra hg0
        have : g = 0 := by omega
        subst this
        simp at hf
        omega
      have hne := natDigitsAux_ne_nil g (n / 10) hg
      match hd : natDigitsAux g (n / 10) with
      | [] => exact absurd hd hne
      | c2 :: cs2 =>
        rw [hd] at heq
        simp only [List.cons_append, List.cons.injEq] at heq
        obtain ⟨hc, -⟩ := heq
        subst hc
        exact ih (n / 10) (by omega) (by
          have : n < 10 * 10 ^ g := by
            rw [Nat.pow_succ] at hf
            omega
          omega) c2 cs2 hd

/-- The digit string of `natDigitsAux` folds back to its value. -/
theorem natDigitsAux_val : ∀ (f n : Nat), n < 10 ^ f →
    (natDigitsAux f n).foldl (fun a c => a * 10 + (c.toNat - 48)) 0 = n := by
  intro f
  induction f with
  | zero =>
    intro n hf
    simp only [natDigitsAux, List.foldl_nil]
    simp at hf
    omega
  | succ g ih =>
    intro n hf
    unfold natDigitsAux
    by_cases h : n < 10
    · rw [if_pos h]
      simp only [List.foldl_cons, List.foldl_nil]
      interval_cases n <;> decide
    · rw [if_neg h]
      rw [List.foldl_append]
      have hrec : (natDigitsAux g (n / 10)).foldl (fun a c => a * 10 + (c.toNat - 48)) 0 =
          n / 10 := by
        apply ih
        have : n < 10 * 10 ^ g := by rw [Nat.pow_succ] at hf; omega
        omega
      rw [hrec]
      simp only [List.foldl_cons, List.foldl_nil]
      have hm : n % 10 < 10 := Nat.mod_lt _ (by omega)
      have hchar : (Char.ofNat (48 + n % 10)).toNat = 48 + n % 10 := by
        interval_cases hx : (n % 10) <;> decide
      rw [hchar]
      omega

theorem parseDigitsAcc_append : ∀ (ds rest : List Char) (acc : Nat),
    (∀ c ∈ ds, c.isDigit = true) →
    (∀ c cs, rest = c :: cs → c.isDigit = false) →
    parseDigitsAcc (ds ++ rest) acc =
      (ds.foldl (fun a c => a * 10 + (c.toNat - 48)) acc, rest) := by
  intro ds
  induction ds with
  | nil =>
    intro rest acc hd hr
    simp only [List.nil_append, List.foldl_nil]
    match rest with
    | [] => rfl
    | c :: cs =>
      unfold parseDigitsAcc
      rw [if_neg (by rw [hr c cs rfl]; simp)]
  | cons d ds ih =>
    intro rest acc hd hr
    simp only [List.cons_append, List.foldl_cons]
    unfold parseDigitsAcc
    rw [if_pos (hd d (List.mem_cons_self d ds))]
    exact ih rest _ (fun c hc => hd c (List.mem_cons_of_mem _ hc)) hr

theorem parseStrBody_safe : ∀ (s rest : List Char),
    (∀ c ∈ s, safeChar c = true) →
    parseStrBody (s ++ '"' :: rest) = some (s, rest) := by
  intro s
  induction s with
  | nil =>
    intro rest h
    simp only [List.nil_append]
    unfold parseStrBody
    rw [if_pos rfl]
  | cons c cs ih =>
    intro rest h
    have hc := h c (List.mem_cons_self c cs)
    simp only [safeChar, Bool.and_eq_true, bne_iff_ne, ne_eq, decide_eq_true_eq] at hc
    obtain ⟨⟨⟨h1, h2⟩, h3⟩, h4⟩ := hc
    simp only [List.cons_append]
    unfold parseStrBody
    rw [if_neg h1, if_neg h2, if_neg (by omega)]
    rw [ih rest (fun x hx => h x (List.mem_cons_of_mem _ hx))]
    rfl

theorem stopOk_not_digit {rest : List Char} (h : stopOk rest = true) :
    ∀ c cs, rest = c :: cs → c.isDigit = false := by
  intro c cs he
  subst he
  simp only [stopOk, Bool.or_eq_true, beq_iff_eq] at h
  rcases h with (h | h) | h <;> (subst h; decide)

theorem parseNumberSigned_digits (neg : Bool) (n : Nat) (rest : List Char)
    (hr : stopOk rest = true) :
    parseNumberSigned neg ((pyNatStr n).data ++ rest) =
      some (.num (if neg then -(n : Int) else (n : Int)), rest) := by
  have hbound : n < 10 ^ (n + 1) := by
    calc n < 10 ^ n := Nat.lt_pow_self (by norm_num) n
    _ ≤ 10 ^ (n + 1) := Nat.pow_le_pow_right (by norm_num) (by omega)
  have hne := natDigitsAux_ne_nil (n + 1) n (by omega)
  have hgood := natDigitsAux_goodChar (n + 1) n
  have hval := natDigitsAux_val (n + 1) n hbound
  match hd : natDigitsAux (n + 1) n with
  | [] => exact absurd hd hne
  | c :: cs =>
    have hmem : c ∈ natDigitsAux (n + 1) n := by rw [hd]; exact List.mem_cons_self _ _
    obtain ⟨hdig, -, -, hnotminus, hnotI, -, -, -, -, -, -⟩ := hgood c hmem
    have hdata : (pyNatStr n).data = c :: cs := by
      show (natDigitsAux (n + 1) n) = c :: cs
      exact hd
    rw [hdata]
    simp only [List.cons_append]
    unfold parseNumberSigned
    split
    · rename_i t heq
      injection heq with h1 h2
      exact absurd h1 hnotI
    · rename_i c2 t heq
      injection heq with h1 h2
      subst h1
      subst h2
      rw [if_pos hdig]
      have hzero : (c == '0' && match cs ++ rest with
          | d :: _ => d.isDigit
          | [] => false) = false := by
        by_cases hn0 : n = 0
        · subst hn0
          have h01 : natDigitsAux 1 0 = ['0'] := by decide
          rw [h01] at hd
          rw [List.cons.injEq] at hd
          obtain ⟨-, hcs⟩ := hd
          subst hcs
          simp only [List.nil_append]
          match hrest : rest with
          | [] => simp
          | d :: ds =>
            show (c == '0' && d.isDigit) = false
            rw [stopOk_not_digit hr d ds rfl]
            simp
        · have hcz := natDigitsAux_head_ne_zero (n + 1) n (by omega) hbound c cs hd
          simp [hcz]
      rw [hzero]
      simp only [Bool.false_eq_true, if_false]
      have hdigs : ∀ y ∈ c :: cs, y.isDigit = true := by
        intro y hy
        rw [← hd] at hy
        exact (hgood y hy).1
      have hacc := parseDigitsAcc_append (c :: cs) rest 0 hdigs (stopOk_not_digit hr)
      simp only [List.cons_append] at hacc
      rw [hacc]
      have hfold : List.foldl (fun a c => a * 10 + (c.toNat - 48)) 0 (c :: cs) = n := by
        rw [← hd]; exact hval
      simp only [hfold]
      match hrest : rest with
      | [] => cases neg <;> simp
      | d :: ds =>
        simp only [stopOk, Bool.or_eq_true, beq_iff_eq] at hr
        rcases hr with (h | h) | h <;> (subst h; cases neg <;> simp)
    · rename_i heq
      exact absurd heq (by simp)

theorem parseNumber_pyIntStr (k : Int) (rest : List Char) (hr : stopOk rest = true) :
    parseNumber ((pyIntStr k).data ++ rest) = some (.num k, rest) := by
  by_cases hk : k < 0
  · have hdata : (pyIntStr k).data = '-' :: (pyNatStr (-k).toNat).data := by
      show (pyIntStr k).data = _
      unfold pyIntStr
      rw [if_pos hk]
      rw [String.data_append]
      rfl
    rw [hdata]
    simp only [List.cons_append]
    unfold parseNumber
    show parseNumberSigned true ((pyNatStr (-k).toNat).data ++ rest) =
      some (Json.num k, rest)
    rw [parseNumberSigned_digits true _ rest hr]
    have h2 : (((-k).toNat : Int)) = -k := Int.toNat_of_nonneg (by omega)
    simp only [if_true, h2, neg_neg]
  · have hdata : (pyIntStr k).data = (pyNatStr k.toNat).data := by
      unfold pyIntStr
      rw [if_neg hk]
    rw [hdata]
    unfold parseNumber
    have hne := natDigitsAux_ne_nil (k.toNat + 1) k.toNat (by omega)
    have hgood := natDigitsAux_goodChar (k.toNat + 1) k.toNat
    match hd : natDigitsAux (k.toNat + 1) k.toNat with
    | [] => exact absurd hd hne
    | c :: cs =>
      have hmem : c ∈ natDigitsAux (k.toNat + 1) k.toNat := by
        rw [hd]; exact List.mem_cons_self _ _
      obtain ⟨-, -, -, hnotminus, -, -, -, -, -, -, -⟩ := hgood c hmem
      have hdata2 : (pyNatStr k.toNat).data = c :: cs := hd
      rw [hdata2]
      simp only [List.cons_append]
      split
      · rename_i t heq
        injection heq with h1 h2
        exact absurd h1 hnotminus
      · rename_i hnm
        rw [show (c :: (cs ++ rest)) = (pyNatStr k.toNat).data ++ rest by
          rw [hdata2]; simp]
        rw [parseNumberSigned_digits false _ rest hr]
        have h2 : ((k.toNat : Int)) = k := Int.toNat_of_nonneg (by omega)
        simp only [Bool.false_eq_true, if_false, h2]

/-- Every printed JSON value starts with a character that is neither
whitespace nor `<`. -/
theorem printJson_head (v : Json) :
    ∃ c cs, (printJson v).data = c :: cs ∧ jIsWs c = false ∧ c ≠ '<' := by
  match v with
  | .null => exact ⟨'n', _, rfl, by decide, by decide⟩
  | .bool true => exact ⟨'t', _, rfl, by decide, by decide⟩
  | .bool false => exact ⟨'f', _, rfl, by decide, by decide⟩
  | .float => exact ⟨'0', _, rfl, by decide, by decide⟩
  | .str s =>
    refine ⟨'"', s.data ++ "\"".data, ?_, by decide, by decide⟩
    show ("\"" ++ s ++ "\"").data = _
    simp [String.data_append]
  | .arr xs =>
    refine ⟨'[', (printJsonList xs).data ++ "]".data, ?_, by decide, by decide⟩
    show ("[" ++ printJsonList xs ++ "]").data = _
    simp [String.data_append]
  | .obj kvs =>
    refine ⟨'\x7b', (printJsonPairs kvs).data ++ "\x7d".data, ?_, by decide, by decide⟩
    show ("\x7b" ++ printJsonPairs kvs ++ "\x7d").data = _
    simp [String.data_append]
  | .num k =>
    show ∃ c cs, (pyIntStr k).data = c :: cs ∧ jIsWs c = false ∧ c ≠ '<'
    unfold pyIntStr
    by_cases hk : k < 0
    · rw [if_pos hk]
      refine ⟨'-', (pyNatStr (-k).toNat).data, ?_, by decide, by decide⟩
      rw [String.data_append]
      rfl
    · rw [if_neg hk]
      have hne := natDigitsAux_ne_nil (k.toNat + 1) k.toNat (by omega)
      match hd : natDigitsAux (k.toNat + 1) k.toNat with
      | [] => exact absurd hd hne
      | c :: cs =>
        have hmem : c ∈ natDigitsAux (k.toNat + 1) k.toNat := by
          rw [hd]; exact List.mem_cons_self _ _
        obtain ⟨-, hws, hlt, -, -, -, -, -, -, -, -⟩ :=
          natDigitsAux_goodChar (k.toNat + 1) k.toNat c hmem
        exact ⟨c, cs, hd, hws, hlt⟩

/-- Leading whitespace skipping is the identity on a printed value
followed by anything. -/
theorem jskipWs_print (v : Json) (r : List Char) :
    jskipWs ((printJson v).data ++ r) = (printJson v).data ++ r := by
  obtain ⟨c, cs, hd, hws, -⟩ := printJson_head v
  rw [hd]
  simp only [List.cons_append]
  unfold jskipWs
  rw [hws]
  simp

/-- Combining absence of a character over an append. -/
theorem no_lt_append {l1 l2 : List Char} (h1 : ∀ c ∈ l1, c ≠ '<')
    (h2 : ∀ c ∈ l2, c ≠ '<') : ∀ c ∈ l1 ++ l2, c ≠ '<' := by
  intro c hc
  rcases List.mem_append.1 hc with h | h
  · exact h1 c h
  · exact h2 c h

/-- A safe string contributes no `<`. -/
theorem no_lt_safeStr {s : String} (h : safeStr s = true) : ∀ c ∈ s.data, c ≠ '<' := by
  intro c hc
  simp only [safeStr, List.all_eq_true] at h
  have := h c hc
  simp only [safeChar, Bool.and_eq_true, bne_iff_ne, ne_eq] at this
  exact this.2

mutual

/-- No `<` occurs in the serialization of a safe value. -/
theorem printJson_no_lt : ∀ v : Json, Json.safe v = true →
    ∀ c ∈ (printJson v).data, c ≠ '<'
  | .null, _ => by intro c hc; revert c; decide
  | .bool true, _ => by intro c hc; revert c; decide
  | .bool false, _ => by intro c hc; revert c; decide
  | .float, h => by simp [Json.safe] at h
  | .num k, _ => by
    intro c hc
    simp only [printJson] at hc
    unfold pyIntStr at hc
    by_cases hk : k < 0
    · rw [if_pos hk, String.data_append] at hc
      rcases List.mem_append.1 hc with h1 | h2
      · simp only [List.mem_singleton] at h1
        · subst h1; decide
      · exact (natDigitsAux_goodChar _ _ c h2).2.2.1
    · rw [if_neg hk] at hc
      exact (natDigitsAux_goodChar _ _ c hc).2.2.1
  | .str s, h => by
    have hs : safeStr s = true := by simpa [Json.safe] using h
    show ∀ c ∈ ("\"" ++ s ++ "\"").data, c ≠ '<'
    simp only [String.data_append]
    exact no_lt_append (no_lt_append (by decide) (no_lt_safeStr hs)) (by decide)
  | .arr xs, h => by
    have hs : Json.safeList xs = true := by simpa [Json.safe] using h
    show ∀ c ∈ ("[" ++ printJsonList xs ++ "]").data, c ≠ '<'
    simp only [String.data_append]
    exact no_lt_append (no_lt_append (by decide) (printJsonList_no_lt xs hs)) (by decide)
  | .obj kvs, h => by
    have hs : Json.safePairs kvs = true := by simpa [Json.safe] using h
    show ∀ c ∈ ("\x7b" ++ printJsonPairs kvs ++ "\x7d").data, c ≠ '<'
    simp only [String.data_append]
    exact no_lt_append (no_lt_append (by decide) (printJsonPairs_no_lt kvs hs)) (by decide)

/-- No `<` in a serialized element list. -/
theorem printJsonList_no_lt : ∀ xs : List Json, Json.safeList xs = true →
    ∀ c ∈ (printJsonList xs).data, c ≠ '<'
  | [], _ => by intro c hc; simp [printJsonList] at hc
  | [x], h => by
    have hx : Json.safe x = true := by
      simp only [Json.safeList, Bool.and_eq_true] at h
      exact h.1
    show ∀ c ∈ (printJson x).data, c ≠ '<'
    exact printJson_no_lt x hx
  | x :: y :: xs, h => by
    simp only [Json.safeList, Bool.and_eq_true] at h
    show ∀ c ∈ (printJson x ++ ", " ++ printJsonList (y :: xs)).data, c ≠ '<'
    simp only [String.data_append]
    refine no_lt_append (no_lt_append (printJson_no_lt x h.1) (by decide)) ?_
    exact printJsonList_no_lt (y :: xs) (by
      simp only [Json.safeList, Bool.and_eq_true]
      exact ⟨h.2.1, h.2.2⟩)

/-- No `<` in a serialized member list. -/
theorem printJsonPairs_no_lt : ∀ kvs : List (String × Json), Json.safePairs kvs = true →
    ∀ c ∈ (printJsonPairs kvs).data, c ≠ '<'
  | [], _ => by intro c hc; simp [printJsonPairs] at hc
  | [(k, v)], h => by
    simp only [Json.safePairs, Bool.and_eq_true] at h
    show ∀ c ∈ ("\"" ++ k ++ "\": " ++ printJson v).data, c ≠ '<'
    simp only [String.data_append]
    exact no_lt_append (no_lt_append (no_lt_append (by decide)
      (no_lt_safeStr h.1.1)) (by decide)) (printJson_no_lt v h.1.2)
  | (k, v) :: p :: kvs, h => by
    simp only [Json.safePairs, Bool.and_eq_true] at h
    show ∀ c ∈ ("\"" ++ k ++ "\": " ++ printJson v ++ ", " ++
      printJsonPairs (p :: kvs)).data, c ≠ '<'
    simp only [String.data_append]
    refine no_lt_append (no_lt_append (no_lt_append (no_lt_append (no_lt_append
      (by decide) (no_lt_safeStr h.1.1)) (by decide)) (printJson_no_lt v h.1.2))
      (by decide)) ?_
    exact printJsonPairs_no_lt (p :: kvs) (by
      rcases p with ⟨k2, v2⟩
      simp only [Json.safePairs, Bool.and_eq_true]
      exact ⟨h.2.1, h.2.2⟩)

end

theorem stripLit_self (lit rest : List Char) : stripLit lit (lit ++ rest) = some rest := by
  unfold stripLit
  rw [if_pos (List.isPrefixOf_iff_prefix.2 (List.prefix_append _ _))]
  rw [List.drop_left]

theorem jskipWs_cons_of_not_ws {c : Char} (l : List Char) (h : jIsWs c = false) :
    jskipWs (c :: l) = c :: l := by
  unfold jskipWs
  rw [h]
  simp

/-- The leading digit characters also differ from every character the
value dispatcher of `parseVal` tests first. -/
theorem natDigitsAux_goodChar2 : ∀ (f n : Nat), ∀ c ∈ natDigitsAux f n,
    c ≠ '\x7b' ∧ c ≠ '[' ∧ c ≠ '"' ∧ c ≠ 't' ∧ c ≠ 'f' ∧ c ≠ 'n' ∧ c ≠ 'N' ∧
    c ≠ ']' ∧ c ≠ '\x7d' ∧ c ≠ ',' := by
  intro f
  induction f with
  | zero => intro n c hc; simp [natDigitsAux] at hc
  | succ g ih =>
    intro n c hc
    unfold natDigitsAux at hc
    by_cases h : n < 10
    · rw [if_pos h] at hc
      simp only [List.mem_singleton] at hc
      subst hc
      interval_cases n <;> exact ⟨by decide, by decide, by decide, by decide, by decide,
        by decide, by decide, by decide, by decide, by decide⟩
    · rw [if_neg h] at hc
      rcases List.mem_append.1 hc with h1 | h2
      · exact ih _ c h1
      · simp only [List.mem_singleton] at h2
        subst h2
        have hm : n % 10 < 10 := Nat.mod_lt _ (by omega)
        interval_cases hx : (n % 10) <;> exact ⟨by decide, by decide, by decide, by decide,
          by decide, by decide, by decide, by decide, by decide, by decide⟩

/-- The head of a printed integer avoids every dispatcher character of
`parseVal`. -/
theorem pyIntStr_head (k : Int) :
    ∃ c cs, (pyIntStr k).data = c :: cs ∧ jIsWs c = false ∧
    c ≠ '\x7b' ∧ c ≠ '[' ∧ c ≠ '"' ∧ c ≠ 't' ∧ c ≠ 'f' ∧ c ≠ 'n' ∧ c ≠ 'N' := by
  unfold pyIntStr
  by_cases hk : k < 0
  · rw [if_pos hk]
    refine ⟨'-', (pyNatStr (-k).toNat).data, ?_, by decide, by decide, by decide,
      by decide, by decide, by decide, by decide, by decide⟩
    rw [String.data_append]
    rfl
  · rw [if_neg hk]
    have hne := natDigitsAux_ne_nil (k.toNat + 1) k.toNat (by omega)
    match hd : natDigitsAux (k.toNat + 1) k.toNat with
    | [] => exact absurd hd hne
    | c :: cs =>
      have hmem : c ∈ natDigitsAux (k.toNat + 1) k.toNat := by
        rw [hd]; exact List.mem_cons_self _ _
      obtain ⟨-, hws, -, -, -, -, -, -, -, -, -⟩ :=
        natDigitsAux_goodChar (k.toNat + 1) k.toNat c hmem
      obtain ⟨h1, h2, h3, h4, h5, h6, h7, -, -, -⟩ :=
        natDigitsAux_goodChar2 (k.toNat + 1) k.toNat c hmem
      exact ⟨c, cs, hd, hws, h1, h2, h3, h4, h5, h6, h7⟩

theorem one_le_jfuel (v : Json) : 1 ≤ jfuel v := by
  cases v <;> simp [jfuel]

theorem printJson_head2 (v : Json) :
    ∃ c cs, (printJson v).data = c :: cs ∧ jIsWs c = false ∧ c ≠ ']' := by
  match v with
  | .null => exact ⟨'n', _, rfl, by decide, by decide⟩
  | .bool true => exact ⟨'t', _, rfl, by decide, by decide⟩
  | .bool false => exact ⟨'f', _, rfl, by decide, by decide⟩
  | .float => exact ⟨'0', _, rfl, by decide, by decide⟩
  | .str s =>
    refine ⟨'"', s.data ++ "\"".data, ?_, by decide, by decide⟩
    show ("\"" ++ s ++ "\"").data = _
    simp [String.data_append]
  | .arr xs =>
    refine ⟨'[', (printJsonList xs).data ++ "]".data, ?_, by decide, by decide⟩
    show ("[" ++ printJsonList xs ++ "]").data = _
    simp [String.data_append]
  | .obj kvs =>
    refine ⟨'\x7b', (printJsonPairs kvs).data ++ "\x7d".data, ?_, by decide, by decide⟩
    show ("\x7b" ++ printJsonPairs kvs ++ "\x7d").data = _
    simp [String.data_append]
  | .num k =>
    obtain ⟨c, cs, hd, hws, h1, h2, h3, h4, h5, h6, h7⟩ := pyIntStr_head k
    refine ⟨c, cs, hd, hws, ?_⟩
    show c ≠ ']'
    unfold pyIntStr at hd
    by_cases hk : k < 0
    · rw [if_pos hk, String.data_append] at hd
      have : c = '-' := by
        have : ("-").data ++ (pyNatStr (-k).toNat).data = c :: cs := hd
        simpa using congrArg (fun l => l.headD ' ') this.symm
      subst this
      decide
    · rw [if_neg hk] at hd
      have hmem : c ∈ natDigitsAux (k.toNat + 1) k.toNat := by
        show c ∈ (pyNatStr k.toNat).data
        rw [hd]; exact List.mem_cons_self _ _
      exact (natDigitsAux_goodChar2 _ _ c hmem).2.2.2.2.2.2.2.1

theorem printJsonList_cons_head (x : Json) (xs : List Json) :
    ∃ c cs, (printJsonList (x :: xs)).data = c :: cs ∧ jIsWs c = false ∧ c ≠ ']' := by
  obtain ⟨c, cs0, hd, hw, hne⟩ := printJson_head2 x
  cases xs with
  | nil => exact ⟨c, cs0, hd, hw, hne⟩
  | cons y ys =>
    refine ⟨c, cs0 ++ (", " ++ printJsonList (y :: ys)).data, ?_, hw, hne⟩
    show (printJson x ++ ", " ++ printJsonList (y :: ys)).data = _
    rw [String.data_append, String.data_append, hd]
    simp

theorem jskipWs_cons_of_ws {c : Char} (l : List Char) (h : jIsWs c = true) :
    jskipWs (c :: l) = jskipWs l := by
  show (if jIsWs c then jskipWs l else c :: l) = jskipWs l
  rw [h]
  simp

theorem printJsonPairs_cons_head (p : String × Json) (ps : List (String × Json)) :
    ∃ cs, (printJsonPairs (p :: ps)).data = '"' :: cs := by
  obtain ⟨k, v⟩ := p
  cases ps with
  | nil =>
    refine ⟨k.data ++ '"' :: ':' :: ' ' :: (printJson v).data, ?_⟩
    show ("\"" ++ k ++ "\": " ++ printJson v).data = _
    simp [String.data_append]
  | cons q qs =>
    refine ⟨k.data ++ '"' :: ':' :: ' ' :: ((printJson v).data
      ++ ',' :: ' ' :: (printJsonPairs (q :: qs)).data), ?_⟩
    show ("\"" ++ k ++ "\": " ++ printJson v ++ ", " ++ printJsonPairs (q :: qs)).data = _
    simp [String.data_append]

mutual

theorem printVal_parse : ∀ (v : Json) (fuel : Nat) (rest : List Char),
    jfuel v ≤ fuel → Json.safe v = true → stopOk rest = true →
    parseVal fuel ((printJson v).data ++ rest) = some (v, rest)
  | .null, fuel, rest => by
    intro hf hs hr
    obtain ⟨f, rfl⟩ : ∃ f, fuel = f + 1 := ⟨fuel - 1, by have := one_le_jfuel Json.null; omega⟩
    show parseVal (f + 1) ('n' :: ("ull".data ++ rest)) = some (.null, rest)
    unfold parseVal
    rw [jskipWs_cons_of_not_ws _ (by decide)]
    simp only
    rw [if_pos trivial, stripLit_self]
    rfl
  | .bool true, fuel, rest => by
    intro hf hs hr
    obtain ⟨f, rfl⟩ : ∃ f, fuel = f + 1 := ⟨fuel - 1, by have := one_le_jfuel (Json.bool true); omega⟩
    show parseVal (f + 1) ('t' :: ("rue".data ++ rest)) = some (.bool true, rest)
    unfold parseVal
    rw [jskipWs_cons_of_not_ws _ (by decide)]
    simp only
    rw [if_pos trivial, stripLit_self]
    rfl
  | .bool false, fuel, rest => by
    intro hf hs hr
    obtain ⟨f, rfl⟩ : ∃ f, fuel = f + 1 := ⟨fuel - 1, by have := one_le_jfuel (Json.bool false); omega⟩
    show parseVal (f + 1) ('f' :: ("alse".data ++ rest)) = some (.bool false, rest)
    unfold parseVal
    rw [jskipWs_cons_of_not_ws _ (by decide)]
    simp only
    rw [if_pos trivial, stripLit_self]
    rfl
  | .float, fuel, rest => by
    intro hf hs hr
    simp [Json.safe] at hs
  | .num k, fuel, rest => by
    intro hf hs hr
    obtain ⟨f, rfl⟩ : ∃ f, fuel = f + 1 := ⟨fuel - 1, by have := one_le_jfuel (Json.num k); omega⟩
    obtain ⟨c, cs, hd, hws, h1, h2, h3, h4, h5, h6, h7⟩ := pyIntStr_head k
    show parseVal (f + 1) ((pyIntStr k).data ++ rest) = some (.num k, rest)
    rw [hd]
    simp only [List.cons_append]
    unfold parseVal
    rw [jskipWs_cons_of_not_ws _ hws]
    simp only
    rw [if_neg h1, if_neg h2, if_neg h3, if_neg h4, if_neg h5, if_neg h6, if_neg h7]
    have : (c :: (cs ++ rest)) = (pyIntStr k).data ++ rest := by rw [hd]; simp
    rw [this]
    exact parseNumber_pyIntStr k rest hr
  | .str s, fuel, rest => by
    intro hf hs hr
    obtain ⟨f, rfl⟩ : ∃ f, fuel = f + 1 := ⟨fuel - 1, by have := one_le_jfuel (Json.str s); omega⟩
    have hd : (printJson (.str s)).data = '"' :: (s.data ++ ('"' :: rest)) → True := fun _ => trivial
    show parseVal (f + 1) (("\"" ++ s ++ "\"").data ++ rest) = some (.str s, rest)
    have hdata : ("\"" ++ s ++ "\"").data ++ rest = '"' :: (s.data ++ ('"' :: rest)) := by
      simp [String.data_append]
    rw [hdata]
    unfold parseVal
    rw [jskipWs_cons_of_not_ws _ (by decide)]
    simp only
    rw [if_pos trivial]
    have hsafe : ∀ c ∈ s.data, safeChar c = true := by
      simp only [Json.safe, safeStr, List.all_eq_true] at hs
      exact hs
    rw [parseStrBody_safe s.data rest hsafe]
    rfl
  | .arr xs, fuel, rest => by
    intro hf hs hr
    obtain ⟨f, rfl⟩ : ∃ f, fuel = f + 1 :=
      ⟨fuel - 1, by have := one_le_jfuel (Json.arr xs); omega⟩
    cases xs with
    | nil => rfl
    | cons x xs2 =>
      have hdata : (printJson (Json.arr (x :: xs2))).data ++ rest
          = '[' :: ((printJsonList (x :: xs2)).data ++ ']' :: rest) := by
        show ("[" ++ printJsonList (x :: xs2) ++ "]").data ++ rest = _
        simp [String.data_append]
      rw [hdata]
      show (match jskipWs ((printJsonList (x :: xs2)).data ++ ']' :: rest) with
        | ']' :: r2 => some (Json.arr [], r2)
        | r1 => (parseElemSeq f r1).map (fun p => (Json.arr p.1, p.2)))
        = some (Json.arr (x :: xs2), rest)
      obtain ⟨c, cs, hd, hw, hne⟩ := printJsonList_cons_head x xs2
      rw [hd]
      simp only [List.cons_append]
      rw [jskipWs_cons_of_not_ws _ hw]
      split
      · rename_i r2 heq
        injection heq with h1 h2
        exact absurd h1 hne
      · rw [← List.cons_append, ← hd]
        have hf2 : jfuelList (x :: xs2) ≤ f := by
          simp only [jfuel] at hf; omega
        rw [printElems_parse (x :: xs2) f rest hf2 hs (by simp)]
        rfl
  | .obj kvs, fuel, rest => by
    intro hf hs hr
    obtain ⟨f, rfl⟩ : ∃ f, fuel = f + 1 :=
      ⟨fuel - 1, by have := one_le_jfuel (Json.obj kvs); omega⟩
    cases kvs with
    | nil => rfl
    | cons p ps =>
      have hdata : (printJson (Json.obj (p :: ps))).data ++ rest
          = '\x7b' :: ((printJsonPairs (p :: ps)).data ++ '\x7d' :: rest) := by
        show ("\x7b" ++ printJsonPairs (p :: ps) ++ "\x7d").data ++ rest = _
        simp [String.data_append]
      rw [hdata]
      show (match jskipWs ((printJsonPairs (p :: ps)).data ++ '\x7d' :: rest) with
        | '\x7d' :: r2 => some (Json.obj [], r2)
        | r1 => (parseMemberSeq f r1).map (fun p => (Json.obj p.1, p.2)))
        = some (Json.obj (p :: ps), rest)
      obtain ⟨cs, hd⟩ := printJsonPairs_cons_head p ps
      rw [hd]
      simp only [List.cons_append]
      rw [jskipWs_cons_of_not_ws _ (by decide)]
      split
      · rename_i r2 heq
        injection heq with h1 h2
        exact absurd h1 (by decide)
      · rw [← List.cons_append, ← hd]
        have hf2 : jfuelPairs (p :: ps) ≤ f := by
          simp only [jfuel] at hf; omega
        rw [printMembers_parse (p :: ps) f rest hf2 hs (by simp)]
        rfl

theorem printElems_parse : ∀ (xs : List Json) (fuel : Nat) (rest : List Char),
    jfuelList xs ≤ fuel → Json.safeList xs = true → xs ≠ [] →
    parseElemSeq fuel ((printJsonList xs).data ++ ']' :: rest) = some (xs, rest)
  | [], _, _ => by
    intro _ _ hne
    exact absurd rfl hne
  | x :: xs2, fuel, rest => by
    intro hf hs hne
    obtain ⟨f, rfl⟩ : ∃ f, fuel = f + 1 := ⟨fuel - 1, by
      have h1 : 1 ≤ jfuelList (x :: xs2) := Nat.succ_le_succ (Nat.zero_le _)
      omega⟩
    simp only [Json.safeList, Bool.and_eq_true] at hs
    simp only [jfuelList] at hf
    have hm := Nat.max_le.mp (Nat.succ_le_succ_iff.mp hf)
    cases xs2 with
    | nil =>
      rw [show printJsonList [x] = printJson x from rfl]
      unfold parseElemSeq
      rw [printVal_parse x f (']' :: rest) hm.1 hs.1 (by rfl)]
      rfl
    | cons y ys =>
      have hdata : (printJsonList (x :: y :: ys)).data ++ ']' :: rest
          = (printJson x).data
            ++ ',' :: ' ' :: ((printJsonList (y :: ys)).data ++ ']' :: rest) := by
        show (printJson x ++ ", " ++ printJsonList (y :: ys)).data ++ ']' :: rest = _
        simp [String.data_append]
      rw [hdata]
      unfold parseElemSeq
      rw [printVal_parse x f
        (',' :: ' ' :: ((printJsonList (y :: ys)).data ++ ']' :: rest)) hm.1 hs.1 (by rfl)]
      show (parseElemSeq f
          (jskipWs (' ' :: ((printJsonList (y :: ys)).data ++ ']' :: rest)))).map
          (fun p => (x :: p.1, p.2)) = some (x :: y :: ys, rest)
      rw [jskipWs_cons_of_ws _ (by decide)]
      obtain ⟨c, cs, hd, hw, hne2⟩ := printJsonList_cons_head y ys
      rw [hd]
      simp only [List.cons_append]
      rw [jskipWs_cons_of_not_ws _ hw]
      rw [← List.cons_append, ← hd]
      rw [printElems_parse (y :: ys) f rest hm.2 hs.2 (by simp)]
      rfl

theorem printMembers_parse : ∀ (kvs : List (String × Json)) (fuel : Nat) (rest : List Char),
    jfuelPairs kvs ≤ fuel → Json.safePairs kvs = true → kvs ≠ [] →
    parseMemberSeq fuel ((printJsonPairs kvs).data ++ '\x7d' :: rest) = some (kvs, rest)
  | [], _, _ => by
    intro _ _ hne
    exact absurd rfl hne
  | (k, v) :: kvs2, fuel, rest => by
    intro hf hs hne
    obtain ⟨f, rfl⟩ : ∃ f, fuel = f + 1 := ⟨fuel - 1, by
      have h1 : 1 ≤ jfuelPairs ((k, v) :: kvs2) := Nat.succ_le_succ (Nat.zero_le _)
      omega⟩
    simp only [Json.safePairs, Bool.and_eq_true] at hs
    obtain ⟨⟨hk, hv⟩, hps⟩ := hs
    simp only [jfuelPairs] at hf
    have hm := Nat.max_le.mp (Nat.succ_le_succ_iff.mp hf)
    have hk2 : ∀ c ∈ k.data, safeChar c = true := by
      simp only [safeStr, List.all_eq_true] at hk
      exact hk
    cases kvs2 with
    | nil =>
      have hdata : (printJsonPairs [(k, v)]).data ++ '\x7d' :: rest
          = '"' :: (k.data
            ++ '"' :: ':' :: ' ' :: ((printJson v).data ++ '\x7d' :: rest)) := by
        show ("\"" ++ k ++ "\": " ++ printJson v).data ++ '\x7d' :: rest = _
        simp [String.data_append]
      rw [hdata]
      show (match parseStrBody (k.data
          ++ '"' :: ':' :: ' ' :: ((printJson v).data ++ '\x7d' :: rest)) with
        | some (k2, r1) =>
          (match jskipWs r1 with
           | ':' :: r2 =>
             (match parseVal f (jskipWs r2) with
              | some (v2, r3) =>
                (match jskipWs r3 with
                 | ',' :: r4 =>
                   (parseMemberSeq f (jskipWs r4)).map
                     (fun p => ((⟨k2⟩, v2) :: p.1, p.2))
                 | '\x7d' :: r4 => some ([(⟨k2⟩, v2)], r4)
                 | _ => none)
              | none => none)
           | _ => none)
        | none => none) = some ([(k, v)], rest)
      rw [parseStrBody_safe k.data _ hk2]
      show (match parseVal f
          (jskipWs (' ' :: ((printJson v).data ++ '\x7d' :: rest))) with
        | some (v2, r3) =>
          (match jskipWs r3 with
           | ',' :: r4 =>
             (parseMemberSeq f (jskipWs r4)).map
               (fun p => ((⟨k.data⟩, v2) :: p.1, p.2))
           | '\x7d' :: r4 => some ([(⟨k.data⟩, v2)], r4)
           | _ => none)
        | none => none) = some ([(k, v)], rest)
      rw [jskipWs_cons_of_ws _ (by decide), jskipWs_print]
      rw [printVal_parse v f ('\x7d' :: rest) hm.1 hv (by rfl)]
      rfl
    | cons q qs =>
      have hdata : (printJsonPairs ((k, v) :: q :: qs)).data ++ '\x7d' :: rest
          = '"' :: (k.data ++ '"' :: ':' :: ' ' :: ((printJson v).data
              ++ ',' :: ' ' :: ((printJsonPairs (q :: qs)).data ++ '\x7d' :: rest))) := by
        show ("\"" ++ k ++ "\": " ++ printJson v ++ ", " ++ printJsonPairs (q :: qs)).data
            ++ '\x7d' :: rest = _
        simp [String.data_append]
      rw [hdata]
      show (match parseStrBody (k.data ++ '"' :: ':' :: ' ' :: ((printJson v).data
          ++ ',' :: ' ' :: ((printJsonPairs (q :: qs)).data ++ '\x7d' :: rest))) with
        | some (k2, r1) =>
          (match jskipWs r1 with
           | ':' :: r2 =>
             (match parseVal f (jskipWs r2) with
              | some (v2, r3) =>
                (match jskipWs r3 with
                 | ',' :: r4 =>
                   (parseMemberSeq f (jskipWs r4)).map
                     (fun p => ((⟨k2⟩, v2) :: p.1, p.2))
                 | '\x7d' :: r4 => some ([(⟨k2⟩, v2)], r4)
                 | _ => none)
              | none => none)
           | _ => none)
        | none => none) = some ((k, v) :: q :: qs, rest)
      rw [parseStrBody_safe k.data _ hk2]
      show (match parseVal f (jskipWs (' ' :: ((printJson v).data
          ++ ',' :: ' ' :: ((printJsonPairs (q :: qs)).data ++ '\x7d' :: rest)))) with
        | some (v2, r3) =>
          (match jskipWs r3 with
           | ',' :: r4 =>
             (parseMemberSeq f (jskipWs r4)).map
               (fun p => ((⟨k.data⟩, v2) :: p.1, p.2))
           | '\x7d' :: r4 => some ([(⟨k.data⟩, v2)], r4)
           | _ => none)
        | none => none) = some ((k, v) :: q :: qs, rest)
      rw [jskipWs_cons_of_ws _ (by decide), jskipWs_print]
      rw [printVal_parse v f
        (',' :: ' ' :: ((printJsonPairs (q :: qs)).data ++ '\x7d' :: rest)) hm.1 hv (by rfl)]
      show (parseMemberSeq f
          (jskipWs (' ' :: ((printJsonPairs (q :: qs)).data ++ '\x7d' :: rest)))).map
          (fun p => ((⟨k.data⟩, v) :: p.1, p.2)) = some ((k, v) :: q :: qs, rest)
      rw [jskipWs_cons_of_ws _ (by decide)]
      obtain ⟨cs, hd⟩ := printJsonPairs_cons_head q qs
      rw [hd]
      simp only [List.cons_append]
      rw [jskipWs_cons_of_not_ws _ (by decide)]
      rw [← List.cons_append, ← hd]
      rw [printMembers_parse (q :: qs) f rest hm.2 hps (by simp)]
      rfl

end

mutual

theorem jfuel_le_print : ∀ v : Json, jfuel v ≤ (printJson v).data.length + 1
  | .null => Nat.succ_le_succ (Nat.zero_le _)
  | .bool _ => Nat.succ_le_succ (Nat.zero_le _)
  | .num _ => Nat.succ_le_succ (Nat.zero_le _)
  | .float => Nat.succ_le_succ (Nat.zero_le _)
  | .str _ => Nat.succ_le_succ (Nat.zero_le _)
  | .arr xs => by
    have h := jfuelList_le_print xs
    show jfuelList xs + 1 ≤ ("[" ++ printJsonList xs ++ "]").data.length + 1
    have hlen : ("[" ++ printJsonList xs ++ "]").data.length
        = (printJsonList xs).data.length + 2 := by
      simp [String.data_append] <;> omega
    rw [hlen]
    omega
  | .obj kvs => by
    have h := jfuelPairs_le_print kvs
    show jfuelPairs kvs + 1 ≤ ("\x7b" ++ printJsonPairs kvs ++ "\x7d").data.length + 1
    have hlen : ("\x7b" ++ printJsonPairs kvs ++ "\x7d").data.length
        = (printJsonPairs kvs).data.length + 2 := by
      simp [String.data_append] <;> omega
    rw [hlen]
    omega

theorem jfuelList_le_print : ∀ xs : List Json, jfuelList xs ≤ (printJsonList xs).data.length + 2
  | [] => by decide
  | [x] => by
    have h := jfuel_le_print x
    show max (jfuel x) (jfuelList []) + 1 ≤ (printJson x).data.length + 2
    have h2 : jfuelList [] = 1 := rfl
    have hm : max (jfuel x) (jfuelList []) ≤ (printJson x).data.length + 1 :=
      Nat.max_le.mpr ⟨h, by omega⟩
    omega
  | x :: y :: ys => by
    have hx := jfuel_le_print x
    have ht := jfuelList_le_print (y :: ys)
    show max (jfuel x) (jfuelList (y :: ys)) + 1
        ≤ (printJson x ++ ", " ++ printJsonList (y :: ys)).data.length + 2
    have hlen : (printJson x ++ ", " ++ printJsonList (y :: ys)).data.length
        = (printJson x).data.length + 2 + (printJsonList (y :: ys)).data.length := by
      simp [String.data_append] <;> omega
    have hm : max (jfuel x) (jfuelList (y :: ys))
        ≤ (printJson x).data.length + 2 + (printJsonList (y :: ys)).data.length + 1 :=
      Nat.max_le.mpr ⟨by omega, by omega⟩
    rw [hlen]
    omega

theorem jfuelPairs_le_print :
    ∀ kvs : List (String × Json), jfuelPairs kvs ≤ (printJsonPairs kvs).data.length + 2
  | [] => by decide
  | [(k, v)] => by
    have h := jfuel_le_print v
    show max (jfuel v) (jfuelPairs []) + 1
        ≤ ("\"" ++ k ++ "\": " ++ printJson v).data.length + 2
    have h2 : jfuelPairs [] = 1 := rfl
    have hlen : ("\"" ++ k ++ "\": " ++ printJson v).data.length
        = k.data.length + 4 + (printJson v).data.length := by
      simp [String.data_append] <;> omega
    have hm : max (jfuel v) (jfuelPairs [])
        ≤ k.data.length + 4 + (printJson v).data.length + 1 :=
      Nat.max_le.mpr ⟨by omega, by omega⟩
    rw [hlen]
    omega
  | (k, v) :: q :: qs => by
    have hv := jfuel_le_print v
    have ht := jfuelPairs_le_print (q :: qs)
    show max (jfuel v) (jfuelPairs (q :: qs)) + 1
        ≤ ("\"" ++ k ++ "\": " ++ printJson v ++ ", " ++ printJsonPairs (q :: qs)).data.length + 2
    have hlen : ("\"" ++ k ++ "\": " ++ printJson v ++ ", " ++ printJsonPairs (q :: qs)).data.length
        = k.data.length + 4 + (printJson v).data.length + 2
          + (printJsonPairs (q :: qs)).data.length := by
      simp [String.data_append] <;> omega
    have hm : max (jfuel v) (jfuelPairs (q :: qs))
        ≤ k.data.length + 4 + (printJson v).data.length + 2
          + (printJsonPairs (q :: qs)).data.length + 1 :=
      Nat.max_le.mpr ⟨by omega, by omega⟩
    rw [hlen]
    omega

end

theorem parse_print (v : Json) (h : Json.safe v = true) : parseJson (printJson v) = some v := by
  unfold parseJson
  have hfuel : jfuel v ≤ (printJson v).data.length + 1 := jfuel_le_print v
  have hp := printVal_parse v ((printJson v).data.length + 1) [] hfuel h (by rfl)
  rw [List.append_nil] at hp
  rw [hp]
  rfl

theorem findSub_here {l pat : List Char} (h : pat.isPrefixOf l = true) :
    findSub l pat = some 0 := by
  unfold findSub
  rw [if_pos h]

theorem findSub_cons_step {c : Char} {t pat : List Char}
    (h : pat.isPrefixOf (c :: t) = false) :
    findSub (c :: t) pat = (findSub t pat).map (fun n => n + 1) := by
  show (if pat.isPrefixOf (c :: t) = true then some 0
    else (findSub t pat).map (fun n => n + 1)) = _
  rw [if_neg (by simp [h])]

theorem findSub_append_free {p2 : List Char} :
    ∀ (l1 l2 : List Char), (∀ c ∈ l1, c ≠ '<') →
    findSub (l1 ++ l2) ('<' :: p2)
      = (findSub l2 ('<' :: p2)).map (fun n => n + l1.length)
  | [], l2, _ => by simp
  | c :: t, l2, hfree => by
    have hc : c ≠ '<' := hfree c (List.mem_cons_self _ _)
    have hbe : ('<' == c) = false := beq_eq_false_iff_ne.mpr (Ne.symm hc)
    have hpre : ('<' :: p2).isPrefixOf (c :: (t ++ l2)) = false := by
      show (('<' == c) && p2.isPrefixOf (t ++ l2)) = false
      rw [hbe]
      rfl
    rw [List.cons_append, findSub_cons_step hpre,
      findSub_append_free t l2 (fun c2 hc2 => hfree c2 (List.mem_cons_of_mem _ hc2)),
      Option.map_map]
    cases findSub l2 ('<' :: p2) with
    | none => rfl
    | some n => simp [List.length_cons]

theorem pyStrip_delim (a b : Char) (ha : pyIsSpace a = false) (hb : pyIsSpace b = false)
    (l : List Char) : pyStrip ⟨a :: (l ++ [b])⟩ = ⟨a :: (l ++ [b])⟩ := by
  unfold pyStrip
  congr 1
  rw [List.dropWhile_cons, ha]
  simp only [Bool.false_eq_true, if_false]
  rw [show (a :: (l ++ [b])).reverse = b :: (l.reverse ++ [a]) by simp]
  rw [List.dropWhile_cons, hb]
  simp only [Bool.false_eq_true, if_false]
  simp

theorem findSub_opener (l r : List Char) (hfree : ∀ c ∈ l, c ≠ '<') :
    findSub (l ++ ("<ACTION>".data ++ r)) "<ACTION>".data = some l.length := by
  rw [show ("<ACTION>".data : List Char) = '<' :: "ACTION>".data from rfl]
  rw [findSub_append_free l _ hfree]
  rw [findSub_here (List.isPrefixOf_iff_prefix.mpr (List.prefix_append _ _))]
  simp

theorem findSub_closer_inner (l : List Char) (hfree : ∀ c ∈ l, c ≠ '<') :
    findSub ("<ACTION>".data ++ (l ++ "</ACTION>".data)) "</ACTION>".data
      = some (8 + l.length) := by
  have hpre : ("</ACTION>".data).isPrefixOf
      ('<' :: ("ACTION>".data ++ (l ++ "</ACTION>".data))) = false := rfl
  show findSub ('<' :: ("ACTION>".data ++ (l ++ "</ACTION>".data))) "</ACTION>".data
      = some (8 + l.length)
  rw [findSub_cons_step hpre]
  rw [show ("</ACTION>".data : List Char) = '<' :: "/ACTION>".data from rfl]
  rw [findSub_append_free "ACTION>".data _ (by decide)]
  rw [findSub_append_free l _ hfree]
  rw [findSub_here (List.isPrefixOf_iff_prefix.mpr (List.prefix_refl _))]
  simp
  omega

theorem findSub_closer (prose l : List Char) (hp : ∀ c ∈ prose, c ≠ '<')
    (hl : ∀ c ∈ l, c ≠ '<') :
    findSub (prose ++ ("<ACTION>".data ++ (l ++ "</ACTION>".data))) "</ACTION>".data
      = some (prose.length + (8 + l.length)) := by
  rw [show ("</ACTION>".data : List Char) = '<' :: "/ACTION>".data from rfl]
  rw [findSub_append_free prose _ hp]
  rw [show ('<' :: ("/ACTION>".data : List Char)) = "</ACTION>".data from rfl]
  rw [findSub_closer_inner l hl]
  simp
  omega

theorem encodeDirective_data (prose cmd : String) (params : List (String × Json)) :
    (encodeDirective prose cmd params).data
      = prose.data ++ ("<ACTION>".data
        ++ ((printJson (.obj [("command", .str cmd), ("params", .obj params)])).data
          ++ "</ACTION>".data)) := by
  show (prose ++ "<ACTION>"
    ++ printJson (.obj [("command", .str cmd), ("params", .obj params)])
    ++ "</ACTION>").data = _
  simp [String.data_append]

theorem chatExtract_encodeDirective (prose cmd : String) (params : List (String × Json))
    (hp : ∀ c ∈ prose.data, c ≠ '<')
    (hc : safeStr cmd = true)
    (hs : Json.safePairs params = true) :
    chatExtract (encodeDirective prose cmd params)
      = (pyStrip (pySlice (encodeDirective prose cmd params) 0 prose.data.length),
         some (Json.str cmd), some (Json.obj params)) := by
  have hdsafe : Json.safe (Json.obj [("command", Json.str cmd), ("params", Json.obj params)])
      = true := by
    simp only [Json.safe, Json.safePairs, Bool.and_eq_true]
    exact ⟨⟨by decide, hc⟩, ⟨by decide, hs⟩, trivial⟩
  have hdfree := printJson_no_lt _ hdsafe
  have hmsg := encodeDirective_data prose cmd params
  have hfo : findSub (encodeDirective prose cmd params).data "<ACTION>".data
      = some prose.data.length := by
    rw [hmsg]; exact findSub_opener prose.data _ hp
  have hfc : findSub (encodeDirective prose cmd params).data "</ACTION>".data
      = some (prose.data.length
        + (8 + (printJson (.obj [("command", .str cmd), ("params", .obj params)])).data.length)) := by
    rw [hmsg]; exact findSub_closer prose.data _ hp hdfree
  have hg1 : strContains (encodeDirective prose cmd params) "<ACTION>" = true := by
    unfold strContains; rw [hfo]; rfl
  have hg2 : strContains (encodeDirective prose cmd params) "</ACTION>" = true := by
    unfold strContains; rw [hfc]; rfl
  have hsf1 : strFind (encodeDirective prose cmd params) "<ACTION>" = prose.data.length := by
    unfold strFind; rw [hfo]; rfl
  have hsf2 : strFind (encodeDirective prose cmd params) "</ACTION>"
      = prose.data.length
        + (8 + (printJson (.obj [("command", .str cmd), ("params", .obj params)])).data.length) := by
    unfold strFind; rw [hfc]; rfl
  have hslice : pySlice (encodeDirective prose cmd params) (prose.data.length + 8)
      (prose.data.length
        + (8 + (printJson (.obj [("command", .str cmd), ("params", .obj params)])).data.length))
      = printJson (.obj [("command", .str cmd), ("params", .obj params)]) := by
    unfold pySlice
    have hlist : (((encodeDirective prose cmd params).data.take
        (prose.data.length
          + (8 + (printJson (.obj [("command", .str cmd), ("params", .obj params)])).data.length))).drop
        (prose.data.length + 8))
        = (printJson (.obj [("command", .str cmd), ("params", .obj params)])).data := by
      rw [hmsg]
      have hgroup : prose.data ++ ("<ACTION>".data
          ++ ((printJson (.obj [("command", .str cmd), ("params", .obj params)])).data
            ++ "</ACTION>".data))
          = ((prose.data ++ "<ACTION>".data)
            ++ (printJson (.obj [("command", .str cmd), ("params", .obj params)])).data)
            ++ "</ACTION>".data := by
        simp [List.append_assoc]
      rw [hgroup]
      rw [List.take_left' (by simp [List.length_append] <;> omega)]
      rw [List.drop_left' (by simp [List.length_append] <;> omega)]
    exact congrArg String.mk hlist
  have hstrip : pyStrip (printJson (.obj [("command", .str cmd), ("params", .obj params)]))
      = printJson (.obj [("command", .str cmd), ("params", .obj params)]) := by
    have hshape : (printJson (.obj [("command", .str cmd), ("params", .obj params)])).data
        = '\x7b' :: ((printJsonPairs [("command", Json.str cmd), ("params", Json.obj params)]).data
          ++ ['\x7d']) := by
      show ("\x7b" ++ printJsonPairs [("command", Json.str cmd), ("params", Json.obj params)]
        ++ "\x7d").data = _
      simp [String.data_append]
    have hmk : printJson (.obj [("command", .str cmd), ("params", .obj params)])
        = (⟨'\x7b' :: ((printJsonPairs [("command", Json.str cmd), ("params", Json.obj params)]).data
          ++ ['\x7d'])⟩ : String) := congrArg String.mk hshape
    rw [hmk]
    exact pyStrip_delim '\x7b' '\x7d' (by decide) (by decide) _
  have hparse := parse_print _ hdsafe
  unfold chatExtract
  rw [hg1, hg2]
  rw [if_pos (by rfl : (true && true) = true)]
  simp only
  rw [hsf1, hsf2, hslice, hstrip, hparse]
  rfl

/-- C7: encoding a directive (command identifier plus parameter mapping) into the
wire format after prose and decoding with the Directive Extractor reproduces the
same command identifier and the same parameter mapping, provided the prose
contains no marker-opening character and the directive strings are wire-safe. -/
theorem spec_c7_roundtrip (prose cmd : String) (params : List (String × Json))
    (hp : ∀ c ∈ prose.data, c ≠ '<')
    (hc : safeStr cmd = true)
    (hs : Json.safePairs params = true) :
    (chatExtract (encodeDirective prose cmd params)).2.1 = some (.str cmd) ∧
    (chatExtract (encodeDirective prose cmd params)).2.2 = some (.obj params) := by
  rw [chatExtract_encodeDirective prose cmd params hp hc hs]
  exact ⟨rfl, rfl⟩

theorem spec_c7_roundtrip_witness :
    (∀ c ∈ "Done. ".data, c ≠ '<') ∧ safeStr "kill_process" = true ∧
    Json.safePairs [("pid", Json.num 42)] = true ∧
    (chatExtract (encodeDirective "Done. " "kill_process" [("pid", Json.num 42)])).2.1
      = some (.str "kill_process") ∧
    (chatExtract (encodeDirective "Done. " "kill_process" [("pid", Json.num 42)])).2.2
      = some (.obj [("pid", Json.num 42)]) :=
  ⟨by decide, by decide, by decide,
    spec_c7_roundtrip "Done. " "kill_process" [("pid", Json.num 42)]
      (by decide) (by decide) (by decide)⟩

/-- C7 counterexample: a parameter string that itself contains the closing
marker text truncates the embedded JSON at that marker, so decoding loses the
command identifier. -/
theorem spec_c7_counterexample :
    (chatExtract (encodeDirective "Ok. " "kill_by_name"
      [("name", Json.str "</ACTION>")])).2.1 ≠ some (Json.str "kill_by_name") := by
  decide
